import Mathlib

/-!
Shallow embedding of svalinn/parametric_modeling.

The repository issues constructive-solid-geometry commands to the Coreform
Cubit/Trelis kernel (src/tokamak.py, src/MTOT.py, src/AutoTorus.py) and
configures an OpenMC transport run (src/Tutorials/Introduction/Introduction.py).
Each script is embedded as a pure function producing the list of kernel
API calls and command strings it issues, in order.  Python floats are
modelled as rationals (the scripts only add and multiply small inputs),
Python ints as Nat or Int, and the argparse defaults as a Python-value sum
type, so that the string-vs-bool default of the -d and -g flags is kept.
-/

namespace Cubit

/-- Commands and API calls issued to the Cubit/Trelis kernel.  Each
constructor stands for exactly one command-string template or API entry
point of the scripts, with its numeric and name arguments as fields. -/
inductive Cmd where
  /-- cubit.init([''])  -/
  | init
  /-- cubit.torus(major, minor) -/
  | apiTorus (major minor : Rat)
  /-- cubit.cylinder(height, r1, r2, r3) -/
  | apiCylinder (height r1 r2 r3 : Rat)
  /-- command string: create torus major radius R minor radius r (AutoTorus) -/
  | createTorus (major minor : Int)
  /-- command string: group 'mat:name' add vol v -/
  | groupAdd (name : String) (vol : Nat)
  /-- command string: subtract volume a from volume b keep_tool -/
  | subtractVolume (tool blank : Nat)
  /-- command string: subtract vol a from vol b keep_tool -/
  | subtractVolKeep (tool blank : Nat)
  /-- command string: subtract vol a from vol b (graveyard, no keep_tool) -/
  | subtractVol (tool blank : Nat)
  /-- command string: intersect vol a b keep -/
  | intersectKeep (a b : Nat)
  /-- command string: delete vol v -/
  | deleteVol (v : Nat)
  /-- command string: brick x a y b z c -/
  | brick (x y z : Rat)
  /-- command string: imprint volume all -/
  | imprint
  /-- command string: merge volume all -/
  | merge
  /-- command string: set attribute on -/
  | setAttr
  /-- command string: export acis 'path.sat' overwrite -/
  | exportAcis (path : String)
  /-- command string: export dagmc 'dagmc.h5m' make_watertight -/
  | exportDagmc
  deriving DecidableEq, Repr

end Cubit

open Cubit

/-- Python value that is either a string or a bool: the argparse options
-d (dagmc) and -g (graveyard) have action='store_true' together with
default='False' (the string), so the parsed value is the string 'False'
when the flag is absent and the bool True when it is present. -/
inductive PyVal where
  | pstr (s : String)
  | pbool (b : Bool)
  deriving DecidableEq, Repr

/-- Python's test `x == True` for a PyVal: a string never equals True. -/
def pyEqTrue : PyVal → Bool
  | .pbool b => b
  | .pstr _ => false

/-- Value produced by argparse for a store_true option with
default='False': the bool True when the flag was passed on the command
line, the string 'False' otherwise. -/
def parsedFlag (passed : Bool) : PyVal :=
  if passed then PyVal.pbool true else PyVal.pstr ("False")

/-- Radial build, as loaded from the YAML file.  tokamak.py receives a
dict (symmetric: name -> thickness in insertion order; otherwise the keys
'Inboard'/'Outboard' each holding such a dict); MTOT.py receives lists of
single-pair dicts.  Both decode to ordered (name, thickness) pairs, which
is the shape embedded here; the branch taken by build_torus is the
presence of the 'Inboard' key, which is the constructor here. -/
inductive RadialBuild where
  | sym (layers : List (String × Rat))
  | ibob (inboard outboard : List (String × Rat))
  deriving DecidableEq, Repr

/-- All layer names of a radial build, inboard before outboard. -/
def RadialBuild.names : RadialBuild → List String
  | .sym ls => ls.map Prod.fst
  | .ibob ib ob => ib.map Prod.fst ++ ob.map Prod.fst

/-- Builds on which the Python scripts run to completion: an
inboard/outboard build must have at least one outboard layer, because
both scripts index outboard_layers[0]. -/
def RadialBuild.ok : RadialBuild → Prop
  | .sym _ => True
  | .ibob _ ob => ob ≠ []

/-- List [a, a-1, ..., b+1], the Python range(a, b, -1). -/
def rangeDown (a b : Nat) : List Nat :=
  (List.range (a - b)).map (fun i => a - i)

/-- Running sums starting from `acc`: the list
[acc + t0, acc + t0 + t1, ...], which is numpy's cumsum(ts) + acc. -/
def cumsumFrom (acc : Rat) : List Rat → List Rat
  | [] => []
  | t :: ts => (acc + t) :: cumsumFrom (acc + t) ts

namespace tokamak

/-- contor of src/tokamak.py: one cubit.torus call per layer, at minor
radius cumsum(thicknesses) + minor_radius. -/
def contor (major minor : Rat) (build : List Rat) : List Cmd :=
  (cumsumFrom minor build).map (fun radius => Cmd.apiTorus major radius)

/-- Symmetric-branch loop of build_torus (src/tokamak.py lines 160-165):
iterates over zip(range(vol_id-1, 1, -1), reversed(layers)) with vol_id
incremented once per iteration; returns the commands and the final
vol_id. -/
def symLoop : List (Nat × String) → Nat → List Cmd × Nat
  | [], vol_id => ([], vol_id)
  | (id, name) :: rest, vol_id =>
    let r := symLoop rest (vol_id + 1)
    (Cmd.subtractVolume (id - 1) id :: Cmd.groupAdd name vol_id :: r.1, r.2)

/-- Inboard loop of build_torus (src/tokamak.py lines 113-120): subtract,
intersect with the cylinder (vol 1), delete the unsplit shell, group;
inboard_id advances by 2 per iteration; returns commands and the final
inboard_id. -/
def inboardLoop : List (Nat × String) → Nat → List Cmd × Nat
  | [], inboard_id => ([], inboard_id)
  | (id, name) :: rest, inboard_id =>
    let r := inboardLoop rest (inboard_id + 2)
    (Cmd.subtractVolume (id - 1) id ::
     Cmd.intersectKeep 1 (inboard_id - 1) ::
     Cmd.deleteVol (inboard_id - 1) ::
     Cmd.groupAdd name inboard_id :: r.1, r.2)

/-- Outboard loop of build_torus (src/tokamak.py lines 128-133): subtract
the torus pair, subtract the cylinder (vol 1) keep_tool, group;
outboard_id advances by 1 per iteration; returns commands and the final
outboard_id. -/
def outboardLoop : List (Nat × String) → Nat → List Cmd × Nat
  | [], outboard_id => ([], outboard_id)
  | (id, name) :: rest, outboard_id =>
    let r := outboardLoop rest (outboard_id + 1)
    (Cmd.subtractVolume (id - 1) id ::
     Cmd.subtractVolKeep 1 outboard_id ::
     Cmd.groupAdd name outboard_id :: r.1, r.2)

/-- build_torus of src/tokamak.py: the full command trace.  The
inboard/outboard branch creates the splitting cylinder first; the
symmetric branch has no cylinder.  headI stands for outboard_layers[0]
(the Python crashes when the outboard list is empty, see
RadialBuild.ok). -/
def build_torus (major minor : Rat) (rb : RadialBuild) (graveyard : PyVal) :
    List Cmd :=
  match rb with
  | .ibob ib ob =>
    let inboard_layers := ib.map Prod.fst
    let inboard_th := ib.map Prod.snd
    let outboard_layers := ob.map Prod.fst
    let outboard_th := ob.map Prod.snd
    let inboard_id := inboard_layers.length + 4
    let ibPairs := (rangeDown (inboard_id - 2) 2).zip inboard_layers.reverse
    let ibRes := inboardLoop ibPairs inboard_id
    let outboard_id := outboard_layers.length + ibRes.2 - 1
    let obPairs := (rangeDown (outboard_id - 1) (ibRes.2 - 1)).zip
      outboard_layers.reverse
    let obRes := outboardLoop obPairs outboard_id
    let length := 4 * major
    [Cmd.init, Cmd.apiCylinder (4 * major) major major major,
     Cmd.apiTorus major minor, Cmd.groupAdd ("Vacuum") 2]
    ++ contor major minor inboard_th
    ++ ibRes.1
    ++ contor major minor outboard_th
    ++ obRes.1
    ++ [Cmd.subtractVolume 2 (ibRes.2 - 1),
        Cmd.subtractVolKeep 1 obRes.2,
        Cmd.groupAdd outboard_layers.headI obRes.2,
        Cmd.deleteVol 1]
    ++ (if pyEqTrue graveyard then
          [Cmd.brick length length length,
           Cmd.brick (length * (5/4)) (length * (5/4)) (length * (5/4)),
           Cmd.subtractVol (obRes.2 + 1) (obRes.2 + 2),
           Cmd.groupAdd ("Graveyard") (obRes.2 + 3)]
        else [])
    ++ [Cmd.imprint, Cmd.merge]
  | .sym ls =>
    let layers := ls.map Prod.fst
    let th := ls.map Prod.snd
    let vol_id := th.length + 2
    let pairs := (rangeDown (vol_id - 1) 1).zip layers.reverse
    let res := symLoop pairs vol_id
    let length := 4 * major
    [Cmd.init, Cmd.apiTorus major minor, Cmd.groupAdd ("Vacuum") 1]
    ++ contor major minor th
    ++ res.1
    ++ (if pyEqTrue graveyard then
          [Cmd.brick length length length,
           Cmd.brick (length * (5/4)) (length * (5/4)) (length * (5/4)),
           Cmd.subtractVol res.2 (res.2 + 1),
           Cmd.groupAdd ("Graveyard") (res.2 + 2)]
        else [])
    ++ [Cmd.imprint, Cmd.merge]

/-- save_geometry of src/tokamak.py: set attribute on, export the .sat
file, and export a DAGMC file when dagmc == True (Python ==, so the
string default 'False' never triggers it). -/
def save_geometry (export_path : String) (dagmc : PyVal) : List Cmd :=
  [Cmd.setAttr, Cmd.exportAcis export_path]
  ++ (if pyEqTrue dagmc then [Cmd.exportDagmc] else [])

end tokamak

namespace MTOT

/-- contor of src/MTOT.py (same code as in tokamak.py). -/
def contor (major minor : Rat) (build : List Rat) : List Cmd :=
  (cumsumFrom minor build).map (fun radius => Cmd.apiTorus major radius)

/-- add_graveyard of src/MTOT.py: two bricks, a subtract, and the
Graveyard group; takes the id of the most recent volume and returns the
commands and the updated id. -/
def add_graveyard (vol_id : Nat) (length : Rat) : List Cmd × Nat :=
  ([Cmd.brick length length length,
    Cmd.brick (length * (5/4)) (length * (5/4)) (length * (5/4)),
    Cmd.subtractVol (vol_id + 1) (vol_id + 2),
    Cmd.groupAdd ("Graveyard") (vol_id + 3)], vol_id + 3)

/-- assemble_layers of src/MTOT.py.  The loop runs over
zip(range(last_id, first_id, -1), reversed(layers)), already zipped by
the caller here; cyl_id and ib_ob are the optional arguments (None in the
symmetric build).  Returns the commands and the final last_id. -/
def assemble_layers (pairs : List (Nat × String)) (last_id : Nat)
    (cyl_id : Option Nat) (ib_ob : Option String) : List Cmd × Nat :=
  match pairs with
  | [] => ([], last_id)
  | (id, name) :: rest =>
    if ib_ob = some ("inboard") then
      let r := assemble_layers rest (last_id + 2) cyl_id ib_ob
      (Cmd.subtractVolume (id - 1) id ::
       Cmd.intersectKeep (cyl_id.getD 0) (last_id + 1) ::
       Cmd.deleteVol (last_id + 1) ::
       Cmd.groupAdd name (last_id + 2) :: r.1, r.2)
    else if ib_ob = some ("outboard") then
      let r := assemble_layers rest (last_id + 1) cyl_id ib_ob
      (Cmd.subtractVolume (id - 1) id ::
       Cmd.subtractVolKeep (cyl_id.getD 0) (last_id + 1) ::
       Cmd.groupAdd name (last_id + 1) :: r.1, r.2)
    else
      let r := assemble_layers rest (last_id + 1) cyl_id ib_ob
      (Cmd.subtractVolume (id - 1) id ::
       Cmd.groupAdd name (last_id + 1) :: r.1, r.2)

/-- build_torus of src/MTOT.py: the full command trace.  vol_id starts at
0; the cylinder is created only when the build has an Inboard or Outboard
part; plasma_id is the torus volume id.  headI is outboard_layers[0]. -/
def build_torus (major minor : Rat) (rb : RadialBuild) (graveyard : PyVal) :
    List Cmd :=
  match rb with
  | .ibob ib ob =>
    let inboard_layers := ib.map Prod.fst
    let inboard_th := ib.map Prod.snd
    let outboard_layers := ob.map Prod.fst
    let outboard_th := ob.map Prod.snd
    let v1 := 2 + inboard_layers.length
    let ibPairs := (rangeDown v1 2).zip inboard_layers.reverse
    let ibRes := assemble_layers ibPairs v1 (some 1) (some ("inboard"))
    let first_outboard_id := ibRes.2 + 1
    let v3 := ibRes.2 + outboard_layers.length
    let obPairs := (rangeDown v3 first_outboard_id).zip outboard_layers.reverse
    let obRes := assemble_layers obPairs v3 (some 1) (some ("outboard"))
    let grav := add_graveyard (obRes.2 + 1) (major * 4)
    [Cmd.init, Cmd.apiCylinder (4 * major) major major major,
     Cmd.apiTorus major minor, Cmd.groupAdd ("Vacuum") 2]
    ++ contor major minor inboard_th
    ++ ibRes.1
    ++ contor major minor outboard_th
    ++ obRes.1
    ++ [Cmd.subtractVolume 2 first_outboard_id,
        Cmd.subtractVolKeep 1 (obRes.2 + 1),
        Cmd.groupAdd outboard_layers.headI (obRes.2 + 1),
        Cmd.deleteVol 1]
    ++ (if pyEqTrue graveyard then grav.1 else [])
    ++ [Cmd.imprint, Cmd.merge]
  | .sym ls =>
    let layers := ls.map Prod.fst
    let th := ls.map Prod.snd
    let v1 := 1 + th.length
    let pairs := (rangeDown v1 1).zip layers.reverse
    let res := assemble_layers pairs v1 Option.none Option.none
    let grav := add_graveyard res.2 (major * 4)
    [Cmd.init, Cmd.apiTorus major minor, Cmd.groupAdd ("Vacuum") 1]
    ++ contor major minor th
    ++ res.1
    ++ (if pyEqTrue graveyard then grav.1 else [])
    ++ [Cmd.imprint, Cmd.merge]

/-- save_geometry of src/MTOT.py (same code as in tokamak.py). -/
def save_geometry (export_path : String) (dagmc : PyVal) : List Cmd :=
  [Cmd.setAttr, Cmd.exportAcis export_path]
  ++ (if pyEqTrue dagmc then [Cmd.exportDagmc] else [])

end MTOT

namespace AutoTorus

/-- Running sums r + t0, r + t0 + t1, ... over the integer thicknesses
(AutoTorus converts every thickness with int()). -/
def intCumsum (acc : Int) : List Int → List Int
  | [] => []
  | t :: ts => (acc + t) :: intCumsum (acc + t) ts

/-- Group-naming loop of src/AutoTorus.py lines 66-69: n starts at
2*len(names)+1 and is decremented after each group command. -/
def groupLoop : List String → Nat → List Cmd
  | [], _ => []
  | l :: rest, n => Cmd.groupAdd l n :: groupLoop rest (n - 1)

/-- Geometry commands of src/AutoTorus.py issued once both validation
checks pass: the plasma torus, one torus per layer at the running-sum
minor radius, the subtraction loop (k from len(t)+1 down to 2), imprint
and merge, the Vaccum group (spelled as in the script) and one group per
material name, then the export. -/
def geomCmds (R r : Int) (names : List String) (t : List Int)
    (path filename : String) : List Cmd :=
  Cmd.createTorus R r ::
  (intCumsum r t).map (fun a => Cmd.createTorus R a)
  ++ (rangeDown (t.length + 1) 1).map (fun k => Cmd.subtractVolume (k - 1) k)
  ++ [Cmd.imprint, Cmd.merge, Cmd.groupAdd ("Vaccum") 1]
  ++ groupLoop names (2 * names.length + 1)
  ++ [Cmd.setAttr, Cmd.exportAcis (path ++ filename)]

/-- Full trace of src/AutoTorus.py: cubit.init is issued at import time;
then, if the names and thicknesses arrays differ in length, or if the
total thickness plus the plasma minor radius exceeds the plasma major
radius, the script prints an error and exits before issuing any further
command; otherwise it issues the geometry commands. -/
def script (R r : Int) (names : List String) (t : List Int)
    (path filename : String) : List Cmd :=
  Cmd.init ::
  (if names.length ≠ t.length then []
   else if t.sum + r > R then []
   else geomCmds R r names t path filename)

end AutoTorus

namespace openmc

/-- Distribution object from openmc.stats as used by the script: Discrete
with its point and weight lists, or Uniform over an interval whose bounds
are given as a rational plus a rational multiple of pi (the script passes
0.0 and 2*pi). -/
inductive Dist where
  | discrete (points weights : List Rat)
  | uniform (lo hi : Rat × Rat)
  deriving DecidableEq, Repr

/-- Single add_element call: element symbol, fraction, percent type
('ao' by default, 'wo' when passed), and the optional enrichment
arguments. -/
structure ElementSpec where
  element : String
  fraction : Rat
  percent_type : String
  enrichment : Option Rat
  enrichment_target : Option String
  enrichment_type : Option String
  deriving DecidableEq, Repr

/-- openmc.Material built by add_element and set_density calls. -/
structure Material where
  elements : List ElementSpec
  density : Option (String × Rat)
  deriving DecidableEq, Repr

/-- Result of openmc.Material.mix_materials(materials, fractions,
percent_type, name). -/
structure MixedMaterial where
  components : List Material
  fractions : List Rat
  percent_type : String
  name : String
  deriving DecidableEq, Repr

/-- openmc.stats.CylindricalIndependent(r, phi, z). -/
structure CylindricalIndependent where
  r : Dist
  phi : Dist
  z : Dist
  deriving DecidableEq, Repr

/-- Angular distribution of the source; the script only uses
openmc.stats.Isotropic(). -/
inductive AngleDist where
  | isotropic
  deriving DecidableEq, Repr

/-- openmc.Source after the script's assignments. -/
structure Source where
  space : CylindricalIndependent
  angle : AngleDist
  energy : Dist
  deriving DecidableEq, Repr

/-- openmc.Settings after the script's assignments (source included,
since settings.source is set before settings.export_to_xml). -/
structure Settings where
  dagmc : Bool
  run_mode : String
  particles : Nat
  batches : Nat
  source : Source
  deriving DecidableEq, Repr

/-- Tally filter; the script only uses openmc.CellFilter(cell_id). -/
inductive TallyFilter where
  | cell (id : Nat)
  deriving DecidableEq, Repr

/-- openmc.Tally with the fields the script sets. -/
structure Tally where
  name : String
  filters : List TallyFilter
  scores : List String
  deriving DecidableEq, Repr

/-- Externally visible step taken by the configuration script: an
export_to_xml call carrying the objects being exported, or openmc.run(). -/
inductive Event where
  | exportMaterialsXml (mats : List MixedMaterial)
  | exportSettingsXml (s : Settings)
  | exportTalliesXml (ts : List Tally)
  | run
  deriving DecidableEq, Repr

end openmc

namespace Introduction

open openmc

/-- Tungsten armor (8.7 percent void): W 1.0, density 19.35*0.913 g/cm3. -/
def Armor : Material :=
  { elements := [⟨("W"), 1, ("ao"), none, none, none⟩],
    density := some (("g/cm3"), (1935/100) * (913/1000)) }

/-- Reduced-activation steel: Fe 0.9 wo, Cr 0.09 wo, W 0.01 wo,
density 7.8 g/cm3. -/
def RAFM : Material :=
  { elements := [⟨("Fe"), 9/10, ("wo"), none, none, none⟩,
                 ⟨("Cr"), 9/100, ("wo"), none, none, none⟩,
                 ⟨("W"), 1/100, ("wo"), none, none, none⟩],
    density := some (("g/cm3"), 78/10) }

/-- Pressurized helium coolant: He 1.0, density 5.723e-3 g/cm3. -/
def He : Material :=
  { elements := [⟨("He"), 1, ("ao"), none, none, none⟩],
    density := some (("g/cm3"), 5723/1000000) }

/-- First wall: mix_materials([Armor, RAFM, He], [0.05, 0.323, 0.627],
'vo', 'first_wall'). -/
def First_Wall : MixedMaterial :=
  { components := [Armor, RAFM, He],
    fractions := [5/100, 323/1000, 627/1000],
    percent_type := ("vo"), name := ("first_wall") }

/-- Lead-lithium eutectic: Pb 0.84 ao, Li 0.16 ao enriched to 90.0 ao in
Li6, density 10.5 g/cm3. -/
def PbLi : Material :=
  { elements := [⟨("Pb"), 84/100, ("ao"), none, none, none⟩,
                 ⟨("Li"), 16/100, ("ao"), some 90, some ("Li6"), some ("ao")⟩],
    density := some (("g/cm3"), 105/10) }

/-- Silicon carbide: Si 0.5 ao, C 0.5 ao, density 3.21 g/cm3. -/
def SiC : Material :=
  { elements := [⟨("Si"), 5/10, ("ao"), none, none, none⟩,
                 ⟨("C"), 5/10, ("ao"), none, none, none⟩],
    density := some (("g/cm3"), 321/100) }

/-- Breeder: mix_materials([RAFM, He, PbLi, SiC],
[0.075, 0.149, 0.737, 0.039], 'vo', 'breeder'). -/
def Breeder : MixedMaterial :=
  { components := [RAFM, He, PbLi, SiC],
    fractions := [75/1000, 149/1000, 737/1000, 39/1000],
    percent_type := ("vo"), name := ("breeder") }

/-- Back wall: mix_materials([RAFM, He], [0.8, 0.2], 'vo', 'back_wall'). -/
def Back_Wall : MixedMaterial :=
  { components := [RAFM, He], fractions := [8/10, 2/10],
    percent_type := ("vo"), name := ("back_wall") }

/-- openmc.Materials([First_Wall, Breeder, Back_Wall]): the material
collection that is exported. -/
def mat : List MixedMaterial := [First_Wall, Breeder, Back_Wall]

/-- The neutron source: ring r = 480.0, z = 0.0, uniform azimuth over
[0, 2*pi], isotropic angle, all energy at 14.1e6 eV. -/
def source : Source :=
  { space := { r := Dist.discrete [480] [1],
               phi := Dist.uniform (0, 0) (0, 2),
               z := Dist.discrete [0] [1] },
    angle := AngleDist.isotropic,
    energy := Dist.discrete [14100000] [1] }

/-- Run settings: DAGMC geometry, fixed-source mode, 10000 particles,
10 batches, with the source attached before export. -/
def settings : Settings :=
  { dagmc := true, run_mode := ("fixed source"),
    particles := 10000, batches := 10, source := source }

/-- Cell id holding the breeder material in the DAGMC geometry. -/
def Breeder_ID : Nat := 6

/-- The TBR tally: name 'TBR', filtered to the breeder cell, scoring
H3-production. -/
def TBR : Tally :=
  { name := ("TBR"), filters := [TallyFilter.cell Breeder_ID],
    scores := [("H3-production")] }

/-- Tally collection openmc.Tallies([TBR]). -/
def tallies : List Tally := [TBR]

/-- The sequence of export and run calls the script makes, in order:
materials, settings, tallies, then openmc.run(). -/
def trace : List Event :=
  [Event.exportMaterialsXml mat, Event.exportSettingsXml settings,
   Event.exportTalliesXml tallies, Event.run]

end Introduction

/-! Sequential-ID model of the CAD kernel: every created solid (torus,
cylinder, brick) and every boolean result (subtract, intersect) receives
the next sequential integer volume id, and deleted ids are never
reused. -/

/-- Commands on which the kernel creates a new volume under the
sequential-ID model: solid creation and boolean results. -/
def createsId : Cmd → Bool
  | .apiTorus _ _ => true
  | .apiCylinder _ _ _ _ => true
  | .createTorus _ _ => true
  | .brick _ _ _ => true
  | .subtractVolume _ _ => true
  | .subtractVolKeep _ _ => true
  | .subtractVol _ _ => true
  | .intersectKeep _ _ => true
  | _ => false

/-- Boolean operations: the subtract variants and intersect. -/
def isBoolOp : Cmd → Bool
  | .subtractVolume _ _ => true
  | .subtractVolKeep _ _ => true
  | .subtractVol _ _ => true
  | .intersectKeep _ _ => true
  | _ => false

/-- Kernel bookkeeping state: the next fresh volume id, and the id the
latest boolean operation produced, if any boolean has run yet. -/
abbrev KState := Nat × Option Nat

/-- One command's effect on the kernel bookkeeping state. -/
def kstep (s : KState) (c : Cmd) : KState :=
  if isBoolOp c then (s.1 + 1, some s.1)
  else if createsId c then (s.1 + 1, s.2)
  else s

/-- Kernel bookkeeping state after a command list. -/
def krun (s : KState) (l : List Cmd) : KState := l.foldl kstep s

/-- gchk names s tr: under the sequential-ID model started in state s,
every group command of tr whose material name lies in `names` adds
exactly the id produced by the latest boolean operation before it. -/
def gchk (names : List String) (s : KState) : List Cmd → Bool
  | [] => true
  | c :: cs =>
    (match c with
     | .groupAdd nm v => !(names.contains nm) || s.2 == some v
     | _ => true) && gchk names (kstep s c) cs

/-- Pairs every command with the volume id the kernel assigns to the
solid it creates (none for commands creating no volume), ids handed out
sequentially from n. -/
def annot (n : Nat) : List Cmd → List (Cmd × Option Nat)
  | [] => []
  | c :: cs =>
    if createsId c then (c, some n) :: annot (n + 1) cs
    else (c, Option.none) :: annot n cs

/-- Local condition of the shell-splitting discipline, checked at one
command: if the preceding intersect obliges deleting the unsplit shell t,
this command is exactly that delete; and if this command is an intersect,
its tool is the splitting cylinder (vol 1) and its target is the solid
created by the immediately preceding command, a torus-pair
subtraction. -/
def splitOk (prevSub pend : Option Nat) (c : Cmd) : Bool :=
  (match pend with
   | some t => c == Cmd.deleteVol t
   | none => true)
  && (match c with
      | .intersectKeep a b => a == 1 && prevSub == some b
      | _ => true)

/-- State of the shell-splitting checker: next fresh id; the id of the
solid the previous command created if that command was a torus-pair
subtraction; the pending delete obligation from a previous intersect. -/
def splitStep (s : Nat × Option Nat × Option Nat) (c : Cmd) :
    Nat × Option Nat × Option Nat :=
  (s.1 + (if createsId c then 1 else 0),
   (match c with | Cmd.subtractVolume _ _ => some s.1 | _ => Option.none),
   (match c with | Cmd.intersectKeep _ b => some b | _ => Option.none))

/-- chkSplit s tr: every intersect of tr splits, with the cylinder, the
shell the immediately preceding subtraction created, and is followed by
the deletion of that unsplit shell. -/
def chkSplit (s : Nat × Option Nat × Option Nat) : List Cmd → Bool
  | [] => true
  | c :: cs => splitOk s.2.1 s.2.2 c && chkSplit (splitStep s c) cs

/-- The (name, volume) pairs of all group commands of a trace, in
order. -/
def groupCmds (tr : List Cmd) : List (String × Nat) :=
  tr.filterMap (fun c => match c with
    | Cmd.groupAdd n v => some (n, v)
    | _ => none)

/-- The torus-pair subtraction commands of a trace, in order. -/
def subtractVolumeCmds (tr : List Cmd) : List Cmd :=
  tr.filter (fun c => match c with
    | Cmd.subtractVolume _ _ => true
    | _ => false)

/-- Number of intersect commands in a trace. -/
def countIntersects (tr : List Cmd) : Nat :=
  (tr.filter (fun c => match c with
    | Cmd.intersectKeep _ _ => true
    | _ => false)).length

/-- Number of cylinder subtractions (subtract vol 1 ... keep_tool) in a
trace. -/
def countCylSubs (tr : List Cmd) : Nat :=
  (tr.filter (fun c => match c with
    | Cmd.subtractVolKeep a _ => a == 1
    | _ => false)).length

/-- Targets of the cylinder subtractions of a trace. -/
def cylSubTargets (tr : List Cmd) : List Nat :=
  tr.filterMap (fun c => match c with
    | Cmd.subtractVolKeep 1 b => some b
    | _ => none)

/-- Model ids of the outboard shells of a trace: results of torus-pair
subtractions that are not immediately intersected with the cylinder. -/
def obShellIds : Nat → List Cmd → List Nat
  | next, Cmd.subtractVolume _ _ :: Cmd.intersectKeep _ _ :: rest =>
      obShellIds (next + 2) rest
  | next, Cmd.subtractVolume _ _ :: rest => next :: obShellIds (next + 1) rest
  | next, c :: rest => obShellIds (next + (if createsId c then 1 else 0)) rest
  | _, [] => []

/-- Every outboard shell of the trace is the target of some cylinder
subtraction: the outboard half of claim C4, under the sequential-ID
model. -/
def allOutboardShellsSplit (tr : List Cmd) : Bool :=
  (obShellIds 1 tr).all (fun i => (cylSubTargets tr).contains i)

/-- Expected group-command list: the names paired with the arithmetic
sequence of ids start, start + step, start + 2*step, ... -/
def expGroups : List String → Nat → Nat → List (String × Nat)
  | [], _, _ => []
  | n :: rest, start, step => (n, start) :: expGroups rest (start + step) step

/-- List [n, n-1, ..., n-k+1]: the descending id sequence of the
AutoTorus group loop. -/
def descFrom (n : Nat) : Nat → List Nat
  | 0 => []
  | k + 1 => n :: descFrom (n - 1) k

/-- List [n, n+1, ..., n+k-1]: the ascending ids the kernel hands out. -/
def ascFrom (n : Nat) : Nat → List Nat
  | 0 => []
  | k + 1 => n :: ascFrom (n + 1) k

lemma rangeDown_length (a b : Nat) : (rangeDown a b).length = a - b := by
  simp [rangeDown]

lemma rangeDown_nil {a b : Nat} (h : a ≤ b) : rangeDown a b = [] := by
  simp [rangeDown, Nat.sub_eq_zero_of_le h]

lemma rangeDown_succ {a b : Nat} (h : b < a) :
    rangeDown a b = a :: rangeDown (a - 1) b := by
  unfold rangeDown
  rw [show a - b = (a - 1 - b) + 1 from by omega, List.range_succ_eq_map]
  simp only [List.map_cons, List.map_map, Nat.sub_zero]
  refine congrArg (a :: ·) (List.map_congr_left fun i _ => ?_)
  simp only [Function.comp_apply]
  omega

lemma descFrom_getElem? : ∀ (k n i : Nat), i < k →
    (descFrom n k)[i]? = some (n - i) := by
  intro k
  induction k with
  | zero => intro n i h; omega
  | succ m ih =>
    intro n i h
    cases i with
    | zero => simp [descFrom]
    | succ j =>
      simp only [descFrom, List.getElem?_cons_succ]
      rw [ih (n - 1) j (by omega)]
      congr 1
      omega

lemma ascFrom_getElem? : ∀ (k n i : Nat), i < k →
    (ascFrom n k)[i]? = some (n + i) := by
  intro k
  induction k with
  | zero => intro n i h; omega
  | succ m ih =>
    intro n i h
    cases i with
    | zero => simp [ascFrom]
    | succ j =>
      simp only [ascFrom, List.getElem?_cons_succ]
      rw [ih (n + 1) j (by omega)]
      congr 1
      omega

lemma zip_take_right {α β : Type} : ∀ (l1 : List α) (l2 : List β),
    l1.zip l2 = l1.zip (l2.take l1.length) := by
  intro l1
  induction l1 with
  | nil => intro l2; simp
  | cons a l ih =>
    intro l2
    cases l2 with
    | nil => simp
    | cons b m => simp [List.zip_cons_cons, ih m]

lemma cumsumFrom_length (acc : Rat) (l : List Rat) :
    (cumsumFrom acc l).length = l.length := by
  induction l generalizing acc with
  | nil => rfl
  | cons t ts ih => simp [cumsumFrom, ih]

lemma cumsumFrom_getElem? : ∀ (l : List Rat) (acc : Rat) (i : Nat),
    i < l.length →
    (cumsumFrom acc l)[i]? = some (acc + (l.take (i + 1)).sum) := by
  intro l
  induction l with
  | nil => intro acc i h; simp at h
  | cons t ts ih =>
    intro acc i h
    cases i with
    | zero => simp [cumsumFrom]
    | succ j =>
      simp only [cumsumFrom, List.getElem?_cons_succ]
      rw [ih (acc + t) j (by simpa using h)]
      congr 1
      simp only [List.take_succ_cons, List.sum_cons]
      ring

lemma cumsumFrom_chain : ∀ (l : List Rat) (acc : Rat), (∀ x ∈ l, 0 < x) →
    List.Chain' (· < ·) (cumsumFrom acc l) := by
  intro l
  induction l with
  | nil => intro acc _; simp [cumsumFrom]
  | cons t ts ih =>
    intro acc hp
    rw [cumsumFrom, List.chain'_cons']
    refine ⟨?_, ih (acc + t) (fun x hx => hp x (List.mem_cons_of_mem _ hx))⟩
    intro y hy
    cases ts with
    | nil => simp [cumsumFrom] at hy
    | cons u us =>
      simp only [cumsumFrom, List.head?_cons, Option.mem_def,
        Option.some.injEq] at hy
      have hu : 0 < u := hp u (by simp)
      rw [← hy]
      linarith

/-- State of the shell-splitting checker after a command list. -/
def splitRun (s : Nat × Option Nat × Option Nat) (l : List Cmd) :
    Nat × Option Nat × Option Nat := l.foldl splitStep s

/-- Torus-pair subtraction commands of a trace, each paired with the
model id of the shell it produces (ids handed out from n): entries
(tool, blank, shell id). -/
def subtractAnnots (n : Nat) : List Cmd → List (Nat × Nat × Nat)
  | [] => []
  | c :: cs =>
    match c with
    | Cmd.subtractVolume a b => (a, b, n) :: subtractAnnots (n + 1) cs
    | _ => subtractAnnots (n + (if createsId c then 1 else 0)) cs

/-- Number of volume-creating commands of a list, under the
sequential-ID model. -/
def created : List Cmd → Nat
  | [] => 0
  | c :: cs => (if createsId c then 1 else 0) + created cs

/-- Commands emitted inside the layer-assembly loops. -/
def layerCmd : Cmd → Bool
  | .subtractVolume _ _ => true
  | .subtractVolKeep _ _ => true
  | .intersectKeep _ _ => true
  | .deleteVol _ => true
  | .groupAdd _ _ => true
  | _ => false

/-- Absence of intersect commands. -/
def noInter : Cmd → Bool
  | .intersectKeep _ _ => false
  | _ => true

/-- Brick commands, the marker of the graveyard block. -/
def isBrick : Cmd → Bool
  | .brick _ _ _ => true
  | _ => false

/-- A trace contains a brick command. -/
def hasBrick (tr : List Cmd) : Bool := tr.any isBrick

lemma all_not_mem {p : Cmd → Bool} {l : List Cmd} (h : l.all p = true) {c : Cmd}
    (hc : p c = false) : c ∉ l := by
  intro hm
  have := List.all_eq_true.mp h c hm
  rw [hc] at this
  exact Bool.false_ne_true this

lemma krun_cons (s : KState) (c : Cmd) (l : List Cmd) :
    krun s (c :: l) = krun (kstep s c) l := rfl

lemma krun_append (s : KState) (xs ys : List Cmd) :
    krun s (xs ++ ys) = krun (krun s xs) ys := by
  simp [krun, List.foldl_append]

lemma splitRun_cons (s : Nat × Option Nat × Option Nat) (c : Cmd) (l : List Cmd) :
    splitRun s (c :: l) = splitRun (splitStep s c) l := rfl

lemma splitRun_append (s : Nat × Option Nat × Option Nat) (xs ys : List Cmd) :
    splitRun s (xs ++ ys) = splitRun (splitRun s xs) ys := by
  simp [splitRun, List.foldl_append]

lemma gchk_append (names : List String) :
    ∀ (xs : List Cmd) (ys : List Cmd) (s : KState),
    gchk names s (xs ++ ys)
      = (gchk names s xs && gchk names (krun s xs) ys) := by
  intro xs
  induction xs with
  | nil => intro ys s; simp [gchk, krun]
  | cons c cs ih =>
    intro ys s
    simp only [List.cons_append, List.append_eq, gchk, ih, krun_cons,
      Bool.and_assoc]

lemma chkSplit_append :
    ∀ (xs : List Cmd) (ys : List Cmd) (s : Nat × Option Nat × Option Nat),
    chkSplit s (xs ++ ys)
      = (chkSplit s xs && chkSplit (splitRun s xs) ys) := by
  intro xs
  induction xs with
  | nil => intro ys s; simp [chkSplit, splitRun]
  | cons c cs ih =>
    intro ys s
    simp only [List.cons_append, List.append_eq, chkSplit, ih, splitRun_cons,
      Bool.and_assoc]

lemma subtractAnnots_append :
    ∀ (xs ys : List Cmd) (n : Nat),
    subtractAnnots n (xs ++ ys)
      = subtractAnnots n xs ++ subtractAnnots (n + created xs) ys := by
  intro xs
  induction xs with
  | nil => intro ys n; simp [subtractAnnots, created]
  | cons c cs ih =>
    intro ys n
    cases c <;>
      simp [subtractAnnots, created, createsId, ih, Nat.add_assoc]

lemma groupCmds_append (xs ys : List Cmd) :
    groupCmds (xs ++ ys) = groupCmds xs ++ groupCmds ys := by
  simp [groupCmds]

lemma subtractVolumeCmds_append (xs ys : List Cmd) :
    subtractVolumeCmds (xs ++ ys)
      = subtractVolumeCmds xs ++ subtractVolumeCmds ys := by
  simp [subtractVolumeCmds]

lemma countIntersects_append (xs ys : List Cmd) :
    countIntersects (xs ++ ys) = countIntersects xs + countIntersects ys := by
  simp [countIntersects]

lemma countCylSubs_append (xs ys : List Cmd) :
    countCylSubs (xs ++ ys) = countCylSubs xs + countCylSubs ys := by
  simp [countCylSubs]

lemma hasBrick_append (xs ys : List Cmd) :
    hasBrick (xs ++ ys) = (hasBrick xs || hasBrick ys) := by
  simp [hasBrick]

lemma gchk_tori (names : List String) (major : Rat) :
    ∀ (rs : List Rat) (s : KState),
    gchk names s (rs.map fun x => Cmd.apiTorus major x) = true := by
  intro rs
  induction rs with
  | nil => intro s; simp [gchk]
  | cons a l ih => intro s; simp [gchk, ih]

lemma krun_tori (major : Rat) : ∀ (rs : List Rat) (s : KState),
    krun s (rs.map fun x => Cmd.apiTorus major x) = (s.1 + rs.length, s.2) := by
  intro rs
  induction rs with
  | nil => intro s; simp [krun]
  | cons a l ih =>
    intro s
    rw [List.map_cons, krun_cons,
      show kstep s (Cmd.apiTorus major a) = (s.1 + 1, s.2) from rfl, ih]
    simp only [List.length_cons]
    exact congrArg (fun k => (k, s.2)) (by omega)

lemma splitRun_tori (major : Rat) : ∀ (rs : List Rat) (n : Nat),
    splitRun (n, Option.none, Option.none)
        (rs.map fun x => Cmd.apiTorus major x)
      = (n + rs.length, Option.none, Option.none) := by
  intro rs
  induction rs with
  | nil => intro n; simp [splitRun]
  | cons a l ih =>
    intro n
    rw [List.map_cons, splitRun_cons,
      show splitStep (n, Option.none, Option.none) (Cmd.apiTorus major a)
        = (n + 1, Option.none, Option.none) from rfl, ih]
    simp only [List.length_cons]
    exact congrArg (fun k => (k, Option.none, Option.none)) (by omega)

lemma chkSplit_noInter : ∀ (l : List Cmd) (s : Nat × Option Nat × Option Nat),
    l.all noInter = true → s.2.2 = Option.none → chkSplit s l = true := by
  intro l
  induction l with
  | nil => intro s _ _; simp [chkSplit]
  | cons c cs ih =>
    intro s hall hp
    simp only [List.all_cons, Bool.and_eq_true] at hall
    simp only [chkSplit, Bool.and_eq_true]
    refine ⟨?_, ih _ hall.2 ?_⟩
    · rw [show s.2.2 = Option.none from hp]
      cases c <;> simp_all [splitOk, noInter]
    · cases c <;> simp_all [splitStep, noInter]

lemma splitRun_noInter_pend : ∀ (l : List Cmd) (s : Nat × Option Nat × Option Nat),
    l.all noInter = true → s.2.2 = Option.none →
    (splitRun s l).2.2 = Option.none := by
  intro l
  induction l with
  | nil => intro s _ hp; simpa [splitRun] using hp
  | cons c cs ih =>
    intro s hall hp
    simp only [List.all_cons, Bool.and_eq_true] at hall
    rw [splitRun_cons]
    refine ih _ hall.2 ?_
    cases c <;> simp_all [splitStep, noInter]

lemma tori_all_noInter (major : Rat) (rs : List Rat) :
    (rs.map fun x => Cmd.apiTorus major x).all noInter = true := by
  rw [List.all_eq_true]
  intro c hc
  obtain ⟨x, _, rfl⟩ := List.mem_map.mp hc
  rfl

lemma tori_all_notLayer (major : Rat) (rs : List Rat) :
    (rs.map fun x => Cmd.apiTorus major x).all (fun c => !(isBrick c)) = true := by
  rw [List.all_eq_true]
  intro c hc
  obtain ⟨x, _, rfl⟩ := List.mem_map.mp hc
  rfl

lemma groupCmds_tori (major : Rat) (rs : List Rat) :
    groupCmds (rs.map fun x => Cmd.apiTorus major x) = [] := by
  induction rs with
  | nil => rfl
  | cons a l ih => simpa [groupCmds] using ih

lemma subtractVolumeCmds_tori (major : Rat) (rs : List Rat) :
    subtractVolumeCmds (rs.map fun x => Cmd.apiTorus major x) = [] := by
  induction rs with
  | nil => rfl
  | cons a l ih => simpa [subtractVolumeCmds] using ih

lemma countIntersects_tori (major : Rat) (rs : List Rat) :
    countIntersects (rs.map fun x => Cmd.apiTorus major x) = 0 := by
  induction rs with
  | nil => rfl
  | cons a l ih => simpa [countIntersects] using ih

lemma countCylSubs_tori (major : Rat) (rs : List Rat) :
    countCylSubs (rs.map fun x => Cmd.apiTorus major x) = 0 := by
  induction rs with
  | nil => rfl
  | cons a l ih => simpa [countCylSubs] using ih

lemma hasBrick_tori (major : Rat) (rs : List Rat) :
    hasBrick (rs.map fun x => Cmd.apiTorus major x) = false := by
  induction rs with
  | nil => rfl
  | cons a l ih => simpa [hasBrick, isBrick] using ih

lemma subtractAnnots_tori (major : Rat) : ∀ (rs : List Rat) (n : Nat),
    subtractAnnots n (rs.map fun x => Cmd.apiTorus major x) = [] := by
  intro rs
  induction rs with
  | nil => intro n; rfl
  | cons a l ih => intro n; simpa [subtractAnnots, createsId] using ih _

lemma created_tori (major : Rat) (rs : List Rat) :
    created (rs.map fun x => Cmd.apiTorus major x) = rs.length := by
  induction rs with
  | nil => rfl
  | cons a l ih => simp [created, createsId, ih]; omega

namespace tokamak

lemma symLoop_snd : ∀ (pairs : List (Nat × String)) (v : Nat),
    (symLoop pairs v).2 = v + pairs.length := by
  intro pairs
  induction pairs with
  | nil => intro v; simp [symLoop]
  | cons p rest ih =>
    intro v
    obtain ⟨id, name⟩ := p
    simp only [symLoop, ih, List.length_cons]
    omega

lemma inboardLoop_snd : ∀ (pairs : List (Nat × String)) (i : Nat),
    (inboardLoop pairs i).2 = i + 2 * pairs.length := by
  intro pairs
  induction pairs with
  | nil => intro i; simp [inboardLoop]
  | cons p rest ih =>
    intro i
    obtain ⟨id, name⟩ := p
    simp only [inboardLoop, ih, List.length_cons]
    omega

lemma outboardLoop_snd : ∀ (pairs : List (Nat × String)) (o : Nat),
    (outboardLoop pairs o).2 = o + pairs.length := by
  intro pairs
  induction pairs with
  | nil => intro o; simp [outboardLoop]
  | cons p rest ih =>
    intro o
    obtain ⟨id, name⟩ := p
    simp only [outboardLoop, ih, List.length_cons]
    omega

lemma groupCmds_symLoop : ∀ (pairs : List (Nat × String)) (v : Nat),
    groupCmds (symLoop pairs v).1 = expGroups (pairs.map Prod.snd) v 1 := by
  intro pairs
  induction pairs with
  | nil => intro v; simp [symLoop, groupCmds, expGroups]
  | cons p rest ih =>
    intro v
    obtain ⟨id, name⟩ := p
    simp [symLoop, groupCmds, expGroups, ← ih]

lemma groupCmds_inboardLoop : ∀ (pairs : List (Nat × String)) (i : Nat),
    groupCmds (inboardLoop pairs i).1 = expGroups (pairs.map Prod.snd) i 2 := by
  intro pairs
  induction pairs with
  | nil => intro i; simp [inboardLoop, groupCmds, expGroups]
  | cons p rest ih =>
    intro i
    obtain ⟨id, name⟩ := p
    simp [inboardLoop, groupCmds, expGroups, ← ih]

lemma groupCmds_outboardLoop : ∀ (pairs : List (Nat × String)) (o : Nat),
    groupCmds (outboardLoop pairs o).1 = expGroups (pairs.map Prod.snd) o 1 := by
  intro pairs
  induction pairs with
  | nil => intro o; simp [outboardLoop, groupCmds, expGroups]
  | cons p rest ih =>
    intro o
    obtain ⟨id, name⟩ := p
    simp [outboardLoop, groupCmds, expGroups, ← ih]

lemma subtractVolumeCmds_symLoop : ∀ (pairs : List (Nat × String)) (v : Nat),
    subtractVolumeCmds (symLoop pairs v).1
      = pairs.map (fun p => Cmd.subtractVolume (p.1 - 1) p.1) := by
  intro pairs
  induction pairs with
  | nil => intro v; simp [symLoop, subtractVolumeCmds]
  | cons p rest ih =>
    intro v
    obtain ⟨id, name⟩ := p
    simp only [subtractVolumeCmds] at ih ⊢
    simp [symLoop] at ih ⊢
    exact ih _

lemma symLoop_all : ∀ (pairs : List (Nat × String)) (v : Nat),
    ((symLoop pairs v).1).all layerCmd = true := by
  intro pairs
  induction pairs with
  | nil => intro v; simp [symLoop]
  | cons p rest ih =>
    intro v
    obtain ⟨id, name⟩ := p
    simp [symLoop, layerCmd, ih]

lemma inboardLoop_all : ∀ (pairs : List (Nat × String)) (i : Nat),
    ((inboardLoop pairs i).1).all layerCmd = true := by
  intro pairs
  induction pairs with
  | nil => intro i; simp [inboardLoop]
  | cons p rest ih =>
    intro i
    obtain ⟨id, name⟩ := p
    simp [inboardLoop, layerCmd, ih]

lemma outboardLoop_all : ∀ (pairs : List (Nat × String)) (o : Nat),
    ((outboardLoop pairs o).1).all layerCmd = true := by
  intro pairs
  induction pairs with
  | nil => intro o; simp [outboardLoop]
  | cons p rest ih =>
    intro o
    obtain ⟨id, name⟩ := p
    simp [outboardLoop, layerCmd, ih]

lemma outboardLoop_all_noInter : ∀ (pairs : List (Nat × String)) (o : Nat),
    ((outboardLoop pairs o).1).all noInter = true := by
  intro pairs
  induction pairs with
  | nil => intro o; simp [outboardLoop]
  | cons p rest ih =>
    intro o
    obtain ⟨id, name⟩ := p
    simp [outboardLoop, noInter, ih]

lemma symLoop_all_noInter : ∀ (pairs : List (Nat × String)) (v : Nat),
    ((symLoop pairs v).1).all noInter = true := by
  intro pairs
  induction pairs with
  | nil => intro v; simp [symLoop]
  | cons p rest ih =>
    intro v
    obtain ⟨id, name⟩ := p
    simp [symLoop, noInter, ih]

lemma countIntersects_symLoop : ∀ (pairs : List (Nat × String)) (v : Nat),
    countIntersects (symLoop pairs v).1 = 0 := by
  intro pairs
  induction pairs with
  | nil => intro v; simp [symLoop, countIntersects]
  | cons p rest ih =>
    intro v
    obtain ⟨id, name⟩ := p
    simp [symLoop, countIntersects] at ih ⊢
    exact ih _

lemma countIntersects_inboardLoop : ∀ (pairs : List (Nat × String)) (i : Nat),
    countIntersects (inboardLoop pairs i).1 = pairs.length := by
  intro pairs
  induction pairs with
  | nil => intro i; simp [inboardLoop, countIntersects]
  | cons p rest ih =>
    intro i
    obtain ⟨id, name⟩ := p
    simp [inboardLoop, countIntersects] at ih ⊢
    exact ih _

lemma countIntersects_outboardLoop : ∀ (pairs : List (Nat × String)) (o : Nat),
    countIntersects (outboardLoop pairs o).1 = 0 := by
  intro pairs
  induction pairs with
  | nil => intro o; simp [outboardLoop, countIntersects]
  | cons p rest ih =>
    intro o
    obtain ⟨id, name⟩ := p
    simp [outboardLoop, countIntersects] at ih ⊢
    exact ih _

lemma countCylSubs_symLoop : ∀ (pairs : List (Nat × String)) (v : Nat),
    countCylSubs (symLoop pairs v).1 = 0 := by
  intro pairs
  induction pairs with
  | nil => intro v; simp [symLoop, countCylSubs]
  | cons p rest ih =>
    intro v
    obtain ⟨id, name⟩ := p
    simp [symLoop, countCylSubs] at ih ⊢
    exact ih _

lemma countCylSubs_inboardLoop : ∀ (pairs : List (Nat × String)) (i : Nat),
    countCylSubs (inboardLoop pairs i).1 = 0 := by
  intro pairs
  induction pairs with
  | nil => intro i; simp [inboardLoop, countCylSubs]
  | cons p rest ih =>
    intro i
    obtain ⟨id, name⟩ := p
    simp [inboardLoop, countCylSubs] at ih ⊢
    exact ih _

lemma countCylSubs_outboardLoop : ∀ (pairs : List (Nat × String)) (o : Nat),
    countCylSubs (outboardLoop pairs o).1 = pairs.length := by
  intro pairs
  induction pairs with
  | nil => intro o; simp [outboardLoop, countCylSubs]
  | cons p rest ih =>
    intro o
    obtain ⟨id, name⟩ := p
    simp [outboardLoop, countCylSubs] at ih ⊢
    exact ih _

end tokamak

namespace tokamak

lemma gchk_symLoop (names : List String) :
    ∀ (pairs : List (Nat × String)) (v : Nat) (s : KState), s.1 = v →
    gchk names s (symLoop pairs v).1 = true := by
  intro pairs
  induction pairs with
  | nil => intro v s _; simp [symLoop, gchk]
  | cons p rest ih =>
    intro v s hs
    obtain ⟨id, name⟩ := p
    obtain ⟨s1, s2⟩ := s
    simp only at hs
    subst hs
    have hrec := ih (s1 + 1) (s1 + 1, some s1) rfl
    simp [symLoop, gchk, kstep, isBoolOp, createsId, hrec]

lemma gchk_inboardLoop (names : List String) :
    ∀ (pairs : List (Nat × String)) (i : Nat) (s : KState), s.1 + 1 = i →
    gchk names s (inboardLoop pairs i).1 = true := by
  intro pairs
  induction pairs with
  | nil => intro i s _; simp [inboardLoop, gchk]
  | cons p rest ih =>
    intro i s hs
    obtain ⟨id, name⟩ := p
    obtain ⟨s1, s2⟩ := s
    simp only at hs
    subst hs
    have hrec := ih (s1 + 1 + 2) (s1 + 2, some (s1 + 1)) (by omega)
    have ht : s1 + 1 - 1 = s1 := by omega
    simp [inboardLoop, gchk, kstep, isBoolOp, createsId, ht, hrec]

lemma gchk_outboardLoop (names : List String) :
    ∀ (pairs : List (Nat × String)) (o : Nat) (s : KState),
    (∀ p ∈ pairs, names.contains p.2 = false) →
    gchk names s (outboardLoop pairs o).1 = true := by
  intro pairs
  induction pairs with
  | nil => intro o s _; simp [outboardLoop, gchk]
  | cons p rest ih =>
    intro o s hnm
    obtain ⟨id, name⟩ := p
    have h1 : names.contains name = false := hnm (id, name) (by simp)
    have hrec := fun st =>
      ih (o + 1) st (fun q hq => hnm q (List.mem_cons_of_mem _ hq))
    simp [outboardLoop, gchk, kstep, isBoolOp, createsId, h1, hrec]
    exact Or.inl (by simpa using h1)

lemma chkSplit_inboardLoop :
    ∀ (pairs : List (Nat × String)) (i : Nat)
      (s : Nat × Option Nat × Option Nat),
    s.1 + 1 = i → s.2.2 = Option.none →
    chkSplit s (inboardLoop pairs i).1 = true := by
  intro pairs
  induction pairs with
  | nil => intro i s _ _; simp [inboardLoop, chkSplit]
  | cons p rest ih =>
    intro i s h1 h2
    obtain ⟨id, name⟩ := p
    obtain ⟨s1, s2, s3⟩ := s
    simp only at h1 h2
    subst h1
    subst h2
    have hrec := ih (s1 + 1 + 2) (s1 + 2, Option.none, Option.none)
      (by omega) rfl
    have ht : s1 + 1 - 1 = s1 := by omega
    simp [inboardLoop, chkSplit, splitOk, splitStep, createsId, ht, hrec]

lemma splitRun_inboardLoop_pend :
    ∀ (pairs : List (Nat × String)) (i : Nat)
      (s : Nat × Option Nat × Option Nat),
    s.2.2 = Option.none →
    (splitRun s (inboardLoop pairs i).1).2.2 = Option.none := by
  intro pairs
  induction pairs with
  | nil => intro i s h; simpa [inboardLoop, splitRun] using h
  | cons p rest ih =>
    intro i s _
    obtain ⟨id, name⟩ := p
    rw [show (inboardLoop ((id, name) :: rest) i).1
        = Cmd.subtractVolume (id - 1) id :: Cmd.intersectKeep 1 (i - 1) ::
          Cmd.deleteVol (i - 1) :: Cmd.groupAdd name i ::
          (inboardLoop rest (i + 2)).1 from rfl]
    rw [splitRun_cons, splitRun_cons, splitRun_cons, splitRun_cons]
    exact ih (i + 2) _ rfl

end tokamak

lemma MTOT_contor_eq (major minor : Rat) (b : List Rat) :
    MTOT.contor major minor b = tokamak.contor major minor b := rfl

lemma assemble_none_eq : ∀ (pairs : List (Nat × String)) (v : Nat),
    (MTOT.assemble_layers pairs v Option.none Option.none).1
      = (tokamak.symLoop pairs (v + 1)).1
    ∧ (tokamak.symLoop pairs (v + 1)).2
      = (MTOT.assemble_layers pairs v Option.none Option.none).2 + 1 := by
  intro pairs
  induction pairs with
  | nil => intro v; simp [MTOT.assemble_layers, tokamak.symLoop]
  | cons p rest ih =>
    intro v
    obtain ⟨id, name⟩ := p
    have h := ih (v + 1)
    simp [MTOT.assemble_layers, tokamak.symLoop, h.1, h.2]

lemma assemble_inboard_eq : ∀ (pairs : List (Nat × String)) (v : Nat),
    (MTOT.assemble_layers pairs v (some 1) (some ("inboard"))).1
      = (tokamak.inboardLoop pairs (v + 2)).1
    ∧ (tokamak.inboardLoop pairs (v + 2)).2
      = (MTOT.assemble_layers pairs v (some 1) (some ("inboard"))).2 + 2 := by
  intro pairs
  induction pairs with
  | nil => intro v; simp [MTOT.assemble_layers, tokamak.inboardLoop]
  | cons p rest ih =>
    intro v
    obtain ⟨id, name⟩ := p
    have h := ih (v + 2)
    simp [MTOT.assemble_layers, tokamak.inboardLoop, h.1, h.2]

lemma assemble_outboard_eq : ∀ (pairs : List (Nat × String)) (v : Nat),
    (MTOT.assemble_layers pairs v (some 1) (some ("outboard"))).1
      = (tokamak.outboardLoop pairs (v + 1)).1
    ∧ (tokamak.outboardLoop pairs (v + 1)).2
      = (MTOT.assemble_layers pairs v (some 1) (some ("outboard"))).2 + 1 := by
  intro pairs
  induction pairs with
  | nil => intro v; simp [MTOT.assemble_layers, tokamak.outboardLoop]
  | cons p rest ih =>
    intro v
    obtain ⟨id, name⟩ := p
    have h := ih (v + 1)
    simp [MTOT.assemble_layers, tokamak.outboardLoop, h.1, h.2]

/-- The two scripts issue identical command traces on every radial build
(symmetric and inboard/outboard) for the same radii and graveyard flag. -/
lemma MTOT_eq_tokamak (major minor : Rat) (rb : RadialBuild) (g : PyVal) :
    MTOT.build_torus major minor rb g = tokamak.build_torus major minor rb g := by
  cases rb with
  | sym ls =>
    simp only [MTOT.build_torus, tokamak.build_torus, MTOT_contor_eq,
      MTOT.add_graveyard]
    rw [show (ls.map Prod.snd).length + 2 - 1 = 1 + (ls.map Prod.snd).length
        from by omega,
      show (ls.map Prod.snd).length + 2 = 1 + (ls.map Prod.snd).length + 1
        from by omega]
    have h := assemble_none_eq
      ((rangeDown (1 + (ls.map Prod.snd).length) 1).zip
        (ls.map Prod.fst).reverse)
      (1 + (ls.map Prod.snd).length)
    rw [← h.1, h.2, show major * 4 = 4 * major from mul_comm major 4]
  | ibob ib ob =>
    simp only [MTOT.build_torus, tokamak.build_torus, MTOT_contor_eq,
      MTOT.add_graveyard]
    rw [show (ib.map Prod.fst).length + 4 - 2 = 2 + (ib.map Prod.fst).length
        from by omega,
      show (ib.map Prod.fst).length + 4 = 2 + (ib.map Prod.fst).length + 2
        from by omega]
    rcases hib : MTOT.assemble_layers
        ((rangeDown (2 + (ib.map Prod.fst).length) 2).zip
          (ib.map Prod.fst).reverse)
        (2 + (ib.map Prod.fst).length) (some 1) (some ("inboard"))
      with ⟨ibCmds, a⟩
    have hT : tokamak.inboardLoop
        ((rangeDown (2 + (ib.map Prod.fst).length) 2).zip
          (ib.map Prod.fst).reverse)
        (2 + (ib.map Prod.fst).length + 2) = (ibCmds, a + 2) := by
      have h := assemble_inboard_eq
        ((rangeDown (2 + (ib.map Prod.fst).length) 2).zip
          (ib.map Prod.fst).reverse)
        (2 + (ib.map Prod.fst).length)
      rw [hib] at h
      exact Prod.ext_iff.mpr ⟨h.1.symm, by rw [h.2]⟩
    rw [hT]
    dsimp only
    rw [show (ob.map Prod.fst).length + (a + 2) - 1 - 1
          = a + (ob.map Prod.fst).length from by omega,
      show a + 2 - 1 = a + 1 from by omega,
      show (ob.map Prod.fst).length + (a + 2) - 1
          = a + (ob.map Prod.fst).length + 1 from by omega]
    rcases hob : MTOT.assemble_layers
        ((rangeDown (a + (ob.map Prod.fst).length) (a + 1)).zip
          (ob.map Prod.fst).reverse)
        (a + (ob.map Prod.fst).length) (some 1) (some ("outboard"))
      with ⟨obCmds, b⟩
    have hU : tokamak.outboardLoop
        ((rangeDown (a + (ob.map Prod.fst).length) (a + 1)).zip
          (ob.map Prod.fst).reverse)
        (a + (ob.map Prod.fst).length + 1) = (obCmds, b + 1) := by
      have h := assemble_outboard_eq
        ((rangeDown (a + (ob.map Prod.fst).length) (a + 1)).zip
          (ob.map Prod.fst).reverse)
        (a + (ob.map Prod.fst).length)
      rw [hob] at h
      exact Prod.ext_iff.mpr ⟨h.1.symm, by rw [h.2]⟩
    rw [hU]
    dsimp only
    rw [show major * 4 = 4 * major from mul_comm major 4]

lemma groupCmds_contor (R r : Rat) (b : List Rat) :
    groupCmds (tokamak.contor R r b) = [] :=
  groupCmds_tori R (cumsumFrom r b)

lemma subtractVolumeCmds_contor (R r : Rat) (b : List Rat) :
    subtractVolumeCmds (tokamak.contor R r b) = [] :=
  subtractVolumeCmds_tori R (cumsumFrom r b)

lemma countIntersects_contor (R r : Rat) (b : List Rat) :
    countIntersects (tokamak.contor R r b) = 0 :=
  countIntersects_tori R (cumsumFrom r b)

lemma countCylSubs_contor (R r : Rat) (b : List Rat) :
    countCylSubs (tokamak.contor R r b) = 0 :=
  countCylSubs_tori R (cumsumFrom r b)

lemma hasBrick_contor (R r : Rat) (b : List Rat) :
    hasBrick (tokamak.contor R r b) = false :=
  hasBrick_tori R (cumsumFrom r b)

lemma gchk_contor (names : List String) (R r : Rat) (b : List Rat) (s : KState) :
    gchk names s (tokamak.contor R r b) = true :=
  gchk_tori names R (cumsumFrom r b) s

lemma krun_contor (R r : Rat) (b : List Rat) (s : KState) :
    krun s (tokamak.contor R r b) = (s.1 + b.length, s.2) := by
  rw [show tokamak.contor R r b
      = (cumsumFrom r b).map (fun x => Cmd.apiTorus R x) from rfl,
    krun_tori, cumsumFrom_length]

lemma splitRun_contor (R r : Rat) (b : List Rat) (n : Nat) :
    splitRun (n, Option.none, Option.none) (tokamak.contor R r b)
      = (n + b.length, Option.none, Option.none) := by
  rw [show tokamak.contor R r b
      = (cumsumFrom r b).map (fun x => Cmd.apiTorus R x) from rfl,
    splitRun_tori, cumsumFrom_length]

lemma contor_all_noInter (R r : Rat) (b : List Rat) :
    (tokamak.contor R r b).all noInter = true :=
  tori_all_noInter R (cumsumFrom r b)

/-- Torus-creation, boolean, group, or export commands: the command
classes C8 says are withheld until AutoTorus's validation passes. -/
def isGeomCmd : Cmd → Bool
  | .apiTorus _ _ => true
  | .createTorus _ _ => true
  | .subtractVolume _ _ => true
  | .subtractVolKeep _ _ => true
  | .subtractVol _ _ => true
  | .intersectKeep _ _ => true
  | .groupAdd _ _ => true
  | .exportAcis _ => true
  | .exportDagmc => true
  | _ => false

lemma intCumsum_length (l : List Int) : ∀ acc : Int,
    (AutoTorus.intCumsum acc l).length = l.length := by
  induction l with
  | nil => intro acc; rfl
  | cons t ts ih => intro acc; simp [AutoTorus.intCumsum, ih]

lemma created_ctori (R : Int) (rs : List Int) :
    created (rs.map fun a => Cmd.createTorus R a) = rs.length := by
  induction rs with
  | nil => rfl
  | cons a l ih => simp [created, createsId, ih]; omega

lemma subtractAnnots_ctori (R : Int) : ∀ (rs : List Int) (n : Nat),
    subtractAnnots n (rs.map fun a => Cmd.createTorus R a) = [] := by
  intro rs
  induction rs with
  | nil => intro n; rfl
  | cons a l ih => intro n; simpa [subtractAnnots, createsId] using ih _

lemma groupCmds_ctori (R : Int) (rs : List Int) :
    groupCmds (rs.map fun a => Cmd.createTorus R a) = [] := by
  induction rs with
  | nil => rfl
  | cons a l ih => simpa [groupCmds] using ih

/-- C2: contor (identical in src/tokamak.py and src/MTOT.py) issues
exactly one torus-creation call per layer thickness, all with the given
major radius; the i-th call (0-based, in order of issuance) uses minor
radius r + (t0 + ... + ti), the cumulative sum of the thicknesses plus
the plasma minor radius; and when all thicknesses are positive the minor
radii are strictly increasing, so the tori are nested. -/
theorem C2_contor_cumulative (R r : Rat) (t : List Rat) :
    (tokamak.contor R r t).length = t.length
    ∧ (∀ i : Nat, i < t.length →
        (tokamak.contor R r t)[i]?
          = some (Cmd.apiTorus R (r + (t.take (i + 1)).sum)))
    ∧ ((∀ x ∈ t, 0 < x) → List.Chain' (· < ·) (cumsumFrom r t))
    ∧ MTOT.contor R r t = tokamak.contor R r t := by
  refine ⟨?_, ?_, cumsumFrom_chain t r, rfl⟩
  · simp [tokamak.contor, cumsumFrom_length]
  · intro i hi
    simp only [tokamak.contor, List.getElem?_map]
    rw [cumsumFrom_getElem? t r i hi]
    rfl

/-- Witness for C2 at R = 10, r = 1, t = [1, 2]: the second torus has
minor radius 1 + (1 + 2) = 4 and the radii increase. -/
theorem C2_contor_cumulative_witness :
    (tokamak.contor 10 1 [1, 2])[1]? = some (Cmd.apiTorus 10 4)
    ∧ List.Chain' (· < ·) (cumsumFrom 1 [1, 2]) := by
  have h := C2_contor_cumulative 10 1 [1, 2]
  refine ⟨?_, h.2.2.1 (by decide)⟩
  have h2 := h.2.1 1 (by decide)
  rw [h2]
  norm_num

/-- C6: on every symmetric radial build (the same name/thickness pairs in
the same order, however encoded: a dict for tokamak.py, a list of
single-pair dicts for MTOT.py) with the same major radius, minor radius
and graveyard flag, build_torus of src/MTOT.py issues exactly the same
sequence of Cubit API calls and command strings as build_torus of
src/tokamak.py. -/
theorem C6_scripts_equivalent_sym (R r : Rat) (ls : List (String × Rat))
    (g : PyVal) :
    MTOT.build_torus R r (RadialBuild.sym ls) g
      = tokamak.build_torus R r (RadialBuild.sym ls) g :=
  MTOT_eq_tokamak R r (RadialBuild.sym ls) g

/-- C7: the neutronics-configuration script exports exactly three mixed
materials named first_wall, breeder and back_wall; runs a fixed-source
calculation of 10 batches of 10000 particles with DAGMC geometry; places
an isotropic source with all energy at 14.1e6 eV on the ring r = 480.0,
z = 0.0 with uniform azimuth over [0, 2*pi] (the uniform bounds are
recorded as rational multiples of pi); defines exactly one tally, named
TBR, scoring H3-production filtered to cell id 6; and the three exports
all precede the openmc.run() request. -/
theorem C7_neutronics_configuration :
    Introduction.mat.length = 3
    ∧ Introduction.mat.map openmc.MixedMaterial.name
        = [("first_wall"), ("breeder"), ("back_wall")]
    ∧ Introduction.settings.run_mode = ("fixed source")
    ∧ Introduction.settings.dagmc = true
    ∧ Introduction.settings.particles = 10000
    ∧ Introduction.settings.batches = 10
    ∧ Introduction.settings.source = Introduction.source
    ∧ Introduction.source.angle = openmc.AngleDist.isotropic
    ∧ Introduction.source.energy = openmc.Dist.discrete [14100000] [1]
    ∧ Introduction.source.space.r = openmc.Dist.discrete [480] [1]
    ∧ Introduction.source.space.z = openmc.Dist.discrete [0] [1]
    ∧ Introduction.source.space.phi = openmc.Dist.uniform (0, 0) (0, 2)
    ∧ Introduction.tallies
        = [{ name := ("TBR"), filters := [openmc.TallyFilter.cell 6],
             scores := [("H3-production")] }]
    ∧ Introduction.TBR.filters
        = [openmc.TallyFilter.cell Introduction.Breeder_ID]
    ∧ Introduction.trace
        = [openmc.Event.exportMaterialsXml Introduction.mat,
           openmc.Event.exportSettingsXml Introduction.settings,
           openmc.Event.exportTalliesXml Introduction.tallies,
           openmc.Event.run] :=
  ⟨rfl, rfl, rfl, rfl, rfl, rfl, rfl, rfl, rfl, rfl, rfl, rfl, rfl, rfl, rfl⟩

/-- C8: AutoTorus validates before issuing geometry: when the material
names and thicknesses differ in length, or the total thickness plus the
plasma minor radius exceeds the plasma major radius, the script stops
after cubit.init with no torus-creation, boolean, group or export
command; when both checks pass it issues the geometry commands, and
geometry commands are issued exactly in that case. -/
theorem C8_autotorus_validation (R r : Int) (names : List String)
    (t : List Int) (p f : String) :
    ((names.length ≠ t.length ∨ t.sum + r > R) →
      AutoTorus.script R r names t p f = [Cmd.init])
    ∧ (names.length = t.length → t.sum + r ≤ R →
      AutoTorus.script R r names t p f
        = Cmd.init :: AutoTorus.geomCmds R r names t p f)
    ∧ ((AutoTorus.script R r names t p f).filter isGeomCmd ≠ []
        ↔ (names.length = t.length ∧ t.sum + r ≤ R)) := by
  by_cases h1 : names.length = t.length
  · by_cases h2 : t.sum + r > R
    · have hs : AutoTorus.script R r names t p f = [Cmd.init] := by
        simp [AutoTorus.script, h1, h2]
      refine ⟨fun _ => hs, fun _ h => absurd h2 (by omega), ?_⟩
      rw [hs]
      exact ⟨fun hne => absurd rfl hne, fun hc => absurd hc.2 (by omega)⟩
    · have hs : AutoTorus.script R r names t p f
          = Cmd.init :: AutoTorus.geomCmds R r names t p f := by
        simp [AutoTorus.script, h1, h2]
      refine ⟨fun h => ?_, fun _ _ => hs, ?_⟩
      · rcases h with h | h
        · exact absurd h1 h
        · exact absurd h h2
      · rw [hs]
        constructor
        · intro _; exact ⟨h1, by omega⟩
        · intro _
          simp [AutoTorus.geomCmds, isGeomCmd, List.filter_cons]
  · have hs : AutoTorus.script R r names t p f = [Cmd.init] := by
      simp [AutoTorus.script, h1]
    refine ⟨fun _ => hs, fun h => absurd h h1, ?_⟩
    rw [hs]
    exact ⟨fun hne => absurd rfl hne, fun hc => absurd hc.1 h1⟩

/-- Witness for C8: with two names but mismatched totals 1+1+9 > 10 the
script stops at init; with r = 2 both checks pass and the geometry
commands follow init. -/
theorem C8_autotorus_validation_witness :
    AutoTorus.script 10 9 [("A"), ("B")] [1, 1] ("p") ("f") = [Cmd.init]
    ∧ AutoTorus.script 10 2 [("A"), ("B")] [1, 1] ("p") ("f")
        = Cmd.init :: AutoTorus.geomCmds 10 2 [("A"), ("B")] [1, 1] ("p") ("f") := by
  constructor
  · exact (C8_autotorus_validation 10 9 [("A"), ("B")] [1, 1] ("p") ("f")).1
      (Or.inr (by decide))
  · exact (C8_autotorus_validation 10 2 [("A"), ("B")] [1, 1] ("p") ("f")).2.1
      (by decide) (by decide)

/-- C3: for a symmetric radial build with n layers, build_torus issues
exactly n torus-pair subtraction commands, of the form subtract volume
(k-1) from volume k keep_tool for k = n+1 down to 2 in that order
(outermost pair first; the last one, k = 2, removes the plasma torus,
volume 1), and no others; MTOT.build_torus issues the same ones.  The
graveyard subtraction, when present, uses the distinct no-keep_tool
template and is not among these. -/
theorem C3_pairwise_shell_subtraction (R r : Rat) (ls : List (String × Rat))
    (g : PyVal) :
    subtractVolumeCmds (tokamak.build_torus R r (RadialBuild.sym ls) g)
      = (rangeDown (ls.length + 1) 1).map
          (fun k => Cmd.subtractVolume (k - 1) k)
    ∧ (subtractVolumeCmds
        (tokamak.build_torus R r (RadialBuild.sym ls) g)).length = ls.length
    ∧ subtractVolumeCmds (MTOT.build_torus R r (RadialBuild.sym ls) g)
        = subtractVolumeCmds (tokamak.build_torus R r (RadialBuild.sym ls) g) := by
  have hmain : subtractVolumeCmds (tokamak.build_torus R r (RadialBuild.sym ls) g)
      = (rangeDown (ls.length + 1) 1).map
          (fun k => Cmd.subtractVolume (k - 1) k) := by
    simp only [tokamak.build_torus]
    simp only [subtractVolumeCmds_append, subtractVolumeCmds_contor,
      tokamak.subtractVolumeCmds_symLoop]
    rw [show subtractVolumeCmds
        [Cmd.init, Cmd.apiTorus R r, Cmd.groupAdd ("Vacuum") 1] = [] from rfl]
    have hgrav : subtractVolumeCmds
        (if pyEqTrue g = true then
          [Cmd.brick (4 * R) (4 * R) (4 * R),
           Cmd.brick (4 * R * (5/4)) (4 * R * (5/4)) (4 * R * (5/4)),
           Cmd.subtractVol
             (tokamak.symLoop
               ((rangeDown ((ls.map Prod.snd).length + 2 - 1) 1).zip
                 (ls.map Prod.fst).reverse) ((ls.map Prod.snd).length + 2)).2
             ((tokamak.symLoop
               ((rangeDown ((ls.map Prod.snd).length + 2 - 1) 1).zip
                 (ls.map Prod.fst).reverse) ((ls.map Prod.snd).length + 2)).2 + 1),
           Cmd.groupAdd ("Graveyard")
             ((tokamak.symLoop
               ((rangeDown ((ls.map Prod.snd).length + 2 - 1) 1).zip
                 (ls.map Prod.fst).reverse) ((ls.map Prod.snd).length + 2)).2 + 2)]
        else []) = [] := by
      cases hpg : pyEqTrue g <;> simp [subtractVolumeCmds]
    rw [hgrav]
    rw [show subtractVolumeCmds [Cmd.imprint, Cmd.merge] = [] from rfl]
    simp only [List.append_nil, List.nil_append]
    rw [show (fun p : Nat × String => Cmd.subtractVolume (p.1 - 1) p.1)
        = ((fun k => Cmd.subtractVolume (k - 1) k) ∘ Prod.fst) from rfl,
      ← List.map_map, List.map_fst_zip _ _ (by simp [rangeDown_length]),
      show (ls.map Prod.snd).length + 2 - 1 = ls.length + 1 from by simp]
  refine ⟨hmain, ?_, ?_⟩
  · rw [hmain]
    simp [rangeDown_length]
  · rw [MTOT_eq_tokamak]

lemma headI_mem_of_ne_nil {l : List String} (h : l ≠ []) : l.headI ∈ l := by
  cases l with
  | nil => exact absurd rfl h
  | cons a t => simp [List.headI]

/-- Counterexample to C1 as stated: for the inboard/outboard build with
one inboard layer A and one outboard layer B (major radius 10, minor 1,
no graveyard), the emitted group command for layer B adds volume 7, but
the immediately preceding boolean operation, the cylinder subtraction
'subtract vol 1 from vol 7 keep_tool', produces volume 8 under the
sequential-ID kernel model, so the checker gchk (which demands that every
layer group command name exactly the id the latest boolean produced)
returns false; the same holds for MTOT.build_torus, whose trace is
identical. -/
theorem C1_volume_id_counterexample :
    gchk (RadialBuild.ibob [(("A"), 1)] [(("B"), 1)]).names (1, Option.none)
      (tokamak.build_torus 10 1 (RadialBuild.ibob [(("A"), 1)] [(("B"), 1)])
        (PyVal.pstr ("False"))) = false
    ∧ gchk (RadialBuild.ibob [(("A"), 1)] [(("B"), 1)]).names (1, Option.none)
      (MTOT.build_torus 10 1 (RadialBuild.ibob [(("A"), 1)] [(("B"), 1)])
        (PyVal.pstr ("False"))) = false := by
  constructor
  · decide
  · rw [MTOT_eq_tokamak]
    decide

/-- C1 amended: under the sequential-ID kernel model, for every symmetric
radial build every layer group command emitted by build_torus (in both
scripts) adds exactly the volume id produced by the immediately preceding
boolean operation, provided no layer is named Vacuum or Graveyard (those
group names are emitted for the plasma and graveyard volumes, not for
layers); for every inboard/outboard build the same holds for all
inboard-layer group commands (inboard names distinct from outboard names
and from Vacuum/Graveyard).  The outboard-layer group commands do not
satisfy this in general: see the counterexample. -/
theorem C1_volume_id_bookkeeping_amended (R r : Rat) (g : PyVal) :
    (∀ ls : List (String × Rat),
      (ls.map Prod.fst).contains ("Vacuum") = false →
      (ls.map Prod.fst).contains ("Graveyard") = false →
      gchk (RadialBuild.sym ls).names (1, Option.none)
          (tokamak.build_torus R r (RadialBuild.sym ls) g) = true
      ∧ gchk (RadialBuild.sym ls).names (1, Option.none)
          (MTOT.build_torus R r (RadialBuild.sym ls) g) = true)
    ∧ (∀ ib ob : List (String × Rat), ob ≠ [] →
      (ib.map Prod.fst).contains ("Vacuum") = false →
      (ib.map Prod.fst).contains ("Graveyard") = false →
      (∀ nm ∈ ob.map Prod.fst, (ib.map Prod.fst).contains nm = false) →
      gchk (ib.map Prod.fst) (1, Option.none)
          (tokamak.build_torus R r (RadialBuild.ibob ib ob) g) = true
      ∧ gchk (ib.map Prod.fst) (1, Option.none)
          (MTOT.build_torus R r (RadialBuild.ibob ib ob) g) = true) := by
  constructor
  · intro ls hV hG
    have htok : gchk (RadialBuild.sym ls).names (1, Option.none)
        (tokamak.build_torus R r (RadialBuild.sym ls) g) = true := by
      simp only [tokamak.build_torus, RadialBuild.names]
      simp only [gchk_append, krun_append, Bool.and_eq_true]
      refine ⟨⟨⟨⟨?_, ?_⟩, ?_⟩, ?_⟩, ?_⟩
      · simp [gchk, kstep, isBoolOp, createsId]
        simpa using hV
      · exact gchk_contor _ _ _ _ _
      · rw [show krun (1, Option.none)
            [Cmd.init, Cmd.apiTorus R r, Cmd.groupAdd ("Vacuum") 1]
            = (2, Option.none) from rfl, krun_contor]
        exact tokamak.gchk_symLoop _ _ _ _ (by simp; omega)
      · cases hpg : pyEqTrue g with
        | false => simp [gchk]
        | true =>
          simp [gchk, kstep, isBoolOp, createsId]
          exact Or.inl (by simpa using hG)
      · simp [gchk, kstep, isBoolOp, createsId]
    exact ⟨htok, by rw [MTOT_eq_tokamak]; exact htok⟩
  · intro ib ob hob hV hG hD
    have htok : gchk (ib.map Prod.fst) (1, Option.none)
        (tokamak.build_torus R r (RadialBuild.ibob ib ob) g) = true := by
      simp only [tokamak.build_torus]
      simp only [gchk_append, krun_append, Bool.and_eq_true]
      refine ⟨⟨⟨⟨⟨⟨⟨?_, ?_⟩, ?_⟩, ?_⟩, ?_⟩, ?_⟩, ?_⟩, ?_⟩
      · simp [gchk, kstep, isBoolOp, createsId]
        simpa using hV
      · exact gchk_contor _ _ _ _ _
      · rw [show krun (1, Option.none)
            [Cmd.init, Cmd.apiCylinder (4 * R) R R R, Cmd.apiTorus R r,
             Cmd.groupAdd ("Vacuum") 2]
            = (3, Option.none) from rfl, krun_contor]
        exact tokamak.gchk_inboardLoop _ _ _ _ (by simp; omega)
      · exact gchk_contor _ _ _ _ _
      · refine tokamak.gchk_outboardLoop _ _ _ _ ?_
        intro p hp
        obtain ⟨pk, pn⟩ := p
        exact hD pn (by simpa using (List.of_mem_zip hp).2)
      · have hh : (ib.map Prod.fst).contains ((ob.map Prod.fst).headI) = false :=
          hD _ (headI_mem_of_ne_nil (by simp [hob]))
        simp [gchk, kstep, isBoolOp, createsId]
        exact Or.inl (by simpa using hh)
      · cases hpg : pyEqTrue g with
        | false => simp [gchk]
        | true =>
          simp [gchk, kstep, isBoolOp, createsId]
          exact Or.inl (by simpa using hG)
      · simp [gchk, kstep, isBoolOp, createsId]
    exact ⟨htok, by rw [MTOT_eq_tokamak]; exact htok⟩

/-- Witness for the amended C1: the checks pass on a concrete symmetric
build and on the inboard part of a concrete inboard/outboard build. -/
theorem C1_volume_id_bookkeeping_amended_witness :
    gchk (RadialBuild.sym [(("A"), 1)]).names (1, Option.none)
      (tokamak.build_torus 10 1 (RadialBuild.sym [(("A"), 1)])
        (PyVal.pbool true)) = true
    ∧ gchk ([(("A"), (1 : Rat))].map Prod.fst) (1, Option.none)
      (tokamak.build_torus 10 1 (RadialBuild.ibob [(("A"), 1)] [(("B"), 1)])
        (PyVal.pbool true)) = true :=
  ⟨((C1_volume_id_bookkeeping_amended 10 1 (PyVal.pbool true)).1
      [(("A"), 1)] (by decide) (by decide)).1,
   ((C1_volume_id_bookkeeping_amended 10 1 (PyVal.pbool true)).2
      [(("A"), 1)] [(("B"), 1)] (by decide) (by decide) (by decide)
      (by decide)).1⟩

lemma all_ite {p : Cmd → Bool} (c : Bool) (l : List Cmd)
    (h : l.all p = true) : (if c = true then l else []).all p = true := by
  cases c
  · simp
  · simpa using h

lemma imprint_not_mem_contor (R r : Rat) (b : List Rat) :
    Cmd.imprint ∉ tokamak.contor R r b := by
  simp [tokamak.contor, List.mem_map]

lemma merge_not_mem_contor (R r : Rat) (b : List Rat) :
    Cmd.merge ∉ tokamak.contor R r b := by
  simp [tokamak.contor, List.mem_map]

lemma imprint_not_mem_inboardLoop (pairs : List (Nat × String)) (i : Nat) :
    Cmd.imprint ∉ (tokamak.inboardLoop pairs i).1 :=
  all_not_mem (tokamak.inboardLoop_all pairs i) rfl

lemma merge_not_mem_inboardLoop (pairs : List (Nat × String)) (i : Nat) :
    Cmd.merge ∉ (tokamak.inboardLoop pairs i).1 :=
  all_not_mem (tokamak.inboardLoop_all pairs i) rfl

lemma imprint_not_mem_outboardLoop (pairs : List (Nat × String)) (o : Nat) :
    Cmd.imprint ∉ (tokamak.outboardLoop pairs o).1 :=
  all_not_mem (tokamak.outboardLoop_all pairs o) rfl

lemma merge_not_mem_outboardLoop (pairs : List (Nat × String)) (o : Nat) :
    Cmd.merge ∉ (tokamak.outboardLoop pairs o).1 :=
  all_not_mem (tokamak.outboardLoop_all pairs o) rfl

/-- Counterexample to C4 as stated: for the inboard/outboard build with
inboard layer A and outboard layers B, C (major radius 10, minor 1), the
torus-pair subtraction for the innermost outboard layer produces shell
volume 10 under the sequential-ID model, but no cylinder subtraction
'subtract vol 1 from vol ... keep_tool' ever targets it (the second
cylinder subtraction targets volume 9, the result of the previous
cylinder subtraction), so not every outboard shell has the splitting
cylinder subtracted from it; MTOT.build_torus produces the same trace. -/
theorem C4_split_counterexample :
    allOutboardShellsSplit
      (tokamak.build_torus 10 1
        (RadialBuild.ibob [(("A"), 1)] [(("B"), 1), (("C"), 1)])
        (PyVal.pstr ("False"))) = false
    ∧ allOutboardShellsSplit
      (MTOT.build_torus 10 1
        (RadialBuild.ibob [(("A"), 1)] [(("B"), 1), (("C"), 1)])
        (PyVal.pstr ("False"))) = false := by
  constructor
  · decide
  · rw [MTOT_eq_tokamak]
    decide

lemma append_del_split (A B C D E F G : List Cmd) (s1 s2 s3 : Cmd) :
    A ++ B ++ C ++ D ++ E ++ [s1, s2, s3, Cmd.deleteVol 1] ++ F ++ G
      = (A ++ B ++ C ++ D ++ E ++ [s1, s2, s3])
        ++ Cmd.deleteVol 1 :: (F ++ G) := by
  simp [List.append_assoc]

/-- C4 amended: for every inboard/outboard build (at least one outboard
layer), the splitting cylinder is created first, by the very first
geometry call cubit.cylinder(4*R, R, R, R) right after init; every
intersect command splits, with the cylinder (vol 1), exactly the shell
the immediately preceding torus-pair subtraction produced and is followed
by deletion of that unsplit shell, and there are exactly as many
intersects as inboard layers; exactly one cylinder subtraction
'subtract vol 1 from vol _ keep_tool' is emitted per outboard layer; and
the cylinder (vol 1) is deleted before imprint and merge.  (The original
claim that every outboard shell is the target of its cylinder subtraction
is false, see the counterexample: the targets are consecutive ids that,
under the sequential-ID model, hit the previous cylinder-subtraction
results instead of the fresh shells.)  MTOT.build_torus emits the same
trace. -/
theorem C4_cylinder_split_amended (R r : Rat) (g : PyVal)
    (ib ob : List (String × Rat)) (hob : ob ≠ []) :
    (tokamak.build_torus R r (RadialBuild.ibob ib ob) g).take 2
      = [Cmd.init, Cmd.apiCylinder (4 * R) R R R]
    ∧ chkSplit (1, Option.none, Option.none)
        (tokamak.build_torus R r (RadialBuild.ibob ib ob) g) = true
    ∧ countIntersects (tokamak.build_torus R r (RadialBuild.ibob ib ob) g)
        = ib.length
    ∧ countCylSubs (tokamak.build_torus R r (RadialBuild.ibob ib ob) g)
        = ob.length
    ∧ (∃ pre post, tokamak.build_torus R r (RadialBuild.ibob ib ob) g
        = pre ++ Cmd.deleteVol 1 :: post
        ∧ Cmd.imprint ∉ pre ∧ Cmd.merge ∉ pre
        ∧ Cmd.imprint ∈ post ∧ Cmd.merge ∈ post)
    ∧ MTOT.build_torus R r (RadialBuild.ibob ib ob) g
        = tokamak.build_torus R r (RadialBuild.ibob ib ob) g := by
  refine ⟨rfl, ?_, ?_, ?_, ?_, MTOT_eq_tokamak R r _ g⟩
  · simp only [tokamak.build_torus]
    simp only [chkSplit_append, splitRun_append, Bool.and_eq_true]
    have e1 : splitRun (1, Option.none, Option.none)
        [Cmd.init, Cmd.apiCylinder (4 * R) R R R, Cmd.apiTorus R r,
         Cmd.groupAdd ("Vacuum") 2] = (3, Option.none, Option.none) := rfl
    refine ⟨⟨⟨⟨⟨⟨⟨?_, ?_⟩, ?_⟩, ?_⟩, ?_⟩, ?_⟩, ?_⟩, ?_⟩
    · rfl
    · exact chkSplit_noInter _ _ (contor_all_noInter _ _ _) (by rw [e1])
    · rw [e1, splitRun_contor]
      exact tokamak.chkSplit_inboardLoop _ _ _ (by simp; omega) rfl
    · rw [e1, splitRun_contor]
      exact chkSplit_noInter _ _ (contor_all_noInter _ _ _)
        (tokamak.splitRun_inboardLoop_pend _ _ _ rfl)
    · rw [e1, splitRun_contor]
      exact chkSplit_noInter _ _ (tokamak.outboardLoop_all_noInter _ _)
        (splitRun_noInter_pend _ _ (contor_all_noInter _ _ _)
          (tokamak.splitRun_inboardLoop_pend _ _ _ rfl))
    · rw [e1, splitRun_contor]
      exact chkSplit_noInter _ _ (by rfl)
        (splitRun_noInter_pend _ _ (tokamak.outboardLoop_all_noInter _ _)
          (splitRun_noInter_pend _ _ (contor_all_noInter _ _ _)
            (tokamak.splitRun_inboardLoop_pend _ _ _ rfl)))
    · rw [e1, splitRun_contor]
      exact chkSplit_noInter _ _ (all_ite _ _ (by rfl))
        (splitRun_noInter_pend _ _ (by rfl)
          (splitRun_noInter_pend _ _ (tokamak.outboardLoop_all_noInter _ _)
            (splitRun_noInter_pend _ _ (contor_all_noInter _ _ _)
              (tokamak.splitRun_inboardLoop_pend _ _ _ rfl))))
    · rw [e1, splitRun_contor]
      exact chkSplit_noInter _ _ (by rfl)
        (splitRun_noInter_pend _ _ (all_ite _ _ (by rfl))
          (splitRun_noInter_pend _ _ (by rfl)
            (splitRun_noInter_pend _ _ (tokamak.outboardLoop_all_noInter _ _)
              (splitRun_noInter_pend _ _ (contor_all_noInter _ _ _)
                (tokamak.splitRun_inboardLoop_pend _ _ _ rfl)))))
  · simp only [tokamak.build_torus]
    simp only [countIntersects_append, countIntersects_contor,
      tokamak.countIntersects_inboardLoop, tokamak.countIntersects_outboardLoop,
      apply_ite countIntersects]
    simp [countIntersects, rangeDown_length]
  · simp only [tokamak.build_torus]
    simp only [countCylSubs_append, countCylSubs_contor,
      tokamak.countCylSubs_inboardLoop, tokamak.countCylSubs_outboardLoop,
      tokamak.inboardLoop_snd, apply_ite countCylSubs]
    have hlen : 0 < ob.length := List.length_pos.mpr hob
    simp [countCylSubs, rangeDown_length]
    omega
  · simp only [tokamak.build_torus]
    refine ⟨_, _, append_del_split _ _ _ _ _ _ _ _ _ _, ?_, ?_, ?_, ?_⟩
    · simp [imprint_not_mem_contor, imprint_not_mem_inboardLoop,
        imprint_not_mem_outboardLoop]
    · simp [merge_not_mem_contor, merge_not_mem_inboardLoop,
        merge_not_mem_outboardLoop]
    · simp
    · simp

/-- Witness for the amended C4 at the build with inboard [A] and
outboard [B, C]. -/
theorem C4_cylinder_split_amended_witness :
    (tokamak.build_torus 10 1
        (RadialBuild.ibob [(("A"), 1)] [(("B"), 1), (("C"), 1)])
        (PyVal.pbool true)).take 2
      = [Cmd.init, Cmd.apiCylinder (4 * 10) 10 10 10]
    ∧ chkSplit (1, Option.none, Option.none)
        (tokamak.build_torus 10 1
          (RadialBuild.ibob [(("A"), 1)] [(("B"), 1), (("C"), 1)])
          (PyVal.pbool true)) = true
    ∧ countIntersects (tokamak.build_torus 10 1
          (RadialBuild.ibob [(("A"), 1)] [(("B"), 1), (("C"), 1)])
          (PyVal.pbool true)) = 1
    ∧ countCylSubs (tokamak.build_torus 10 1
          (RadialBuild.ibob [(("A"), 1)] [(("B"), 1), (("C"), 1)])
          (PyVal.pbool true)) = 2 := by
  have h := C4_cylinder_split_amended 10 1 (PyVal.pbool true)
    [(("A"), 1)] [(("B"), 1), (("C"), 1)] (by decide)
  exact ⟨h.1, h.2.1, by simpa using h.2.2.1, by simpa using h.2.2.2.1⟩

lemma map_snd_zip_eq_take {α β : Type} : ∀ (l1 : List α) (l2 : List β),
    (l1.zip l2).map Prod.snd = l2.take l1.length := by
  intro l1
  induction l1 with
  | nil => intro l2; simp
  | cons a l ih =>
    intro l2
    cases l2 with
    | nil => simp
    | cons b m => simp [List.zip_cons_cons, ih m]

lemma expGroups_snd_pairwise : ∀ (names : List String) (s k : Nat), 0 < k →
    List.Pairwise (· < ·) ((expGroups names s k).map Prod.snd)
    ∧ ∀ x ∈ (expGroups names s k).map Prod.snd,
        s ≤ x ∧ x < s + k * names.length := by
  intro names
  induction names with
  | nil => intro s k _; simp [expGroups]
  | cons n rest ih =>
    intro s k hk
    have h := ih (s + k) k hk
    constructor
    · rw [expGroups, List.map_cons, List.pairwise_cons]
      refine ⟨?_, h.1⟩
      intro y hy
      have := (h.2 y hy).1
      omega
    · rw [expGroups, List.map_cons]
      intro x hx
      rcases List.mem_cons.mp hx with rfl | hx
      · simp only [List.length_cons]
        refine ⟨Nat.le_refl _, ?_⟩
        have : 0 < k * (rest.length + 1) := by positivity
        omega
      · have := h.2 x hx
        simp only [List.length_cons]
        constructor
        · omega
        · have h2 := this.2
          have : k * (rest.length + 1) = k * rest.length + k := by ring
          omega

/-- C5: every resulting solid gets exactly one material group command.
For a symmetric n-layer build the group commands are exactly: one adding
the plasma volume (vol 1) to mat:Vacuum, then one per layer in
outermost-first order at the consecutive ids n+2, n+3, ..., 2n+1, plus
the graveyard group when requested.  For an inboard/outboard build: the
plasma group (vol 2), one per inboard layer (ids li+4, li+6, ... step 2),
one per outboard layer except the innermost (consecutive ids from
3*li+lo+3), and the innermost outboard layer grouped by the special-case
step after the loops (id 3*li+2*lo+2), plus the optional graveyard
group.  In both cases the grouped volume ids are pairwise distinct, so no
layer is grouped twice; MTOT.build_torus emits the same group commands. -/
theorem C5_one_group_per_layer (R r : Rat) (g : PyVal) :
    (∀ ls : List (String × Rat),
      groupCmds (tokamak.build_torus R r (RadialBuild.sym ls) g)
        = (("Vacuum"), 1)
            :: expGroups (ls.map Prod.fst).reverse (ls.length + 2) 1
            ++ (if pyEqTrue g = true then
                [(("Graveyard"), 2 * ls.length + 4)] else [])
      ∧ ((groupCmds (tokamak.build_torus R r (RadialBuild.sym ls) g)).map
          Prod.snd).Nodup
      ∧ groupCmds (MTOT.build_torus R r (RadialBuild.sym ls) g)
          = groupCmds (tokamak.build_torus R r (RadialBuild.sym ls) g))
    ∧ (∀ ib ob : List (String × Rat), ob ≠ [] →
      groupCmds (tokamak.build_torus R r (RadialBuild.ibob ib ob) g)
        = (("Vacuum"), 2)
            :: expGroups (ib.map Prod.fst).reverse (ib.length + 4) 2
            ++ expGroups ((ob.map Prod.fst).reverse.take (ob.length - 1))
                (3 * ib.length + ob.length + 3) 1
            ++ [((ob.map Prod.fst).headI, 3 * ib.length + 2 * ob.length + 2)]
            ++ (if pyEqTrue g = true then
                [(("Graveyard"), 3 * ib.length + 2 * ob.length + 5)] else [])
      ∧ ((groupCmds (tokamak.build_torus R r (RadialBuild.ibob ib ob) g)).map
          Prod.snd).Nodup
      ∧ groupCmds (MTOT.build_torus R r (RadialBuild.ibob ib ob) g)
          = groupCmds (tokamak.build_torus R r (RadialBuild.ibob ib ob) g)) := by
  constructor
  · intro ls
    have hmain : groupCmds (tokamak.build_torus R r (RadialBuild.sym ls) g)
        = (("Vacuum"), 1)
            :: expGroups (ls.map Prod.fst).reverse (ls.length + 2) 1
            ++ (if pyEqTrue g = true then
                [(("Graveyard"), 2 * ls.length + 4)] else []) := by
      simp only [tokamak.build_torus]
      simp only [groupCmds_append, groupCmds_contor, tokamak.groupCmds_symLoop,
        tokamak.symLoop_snd, apply_ite groupCmds, map_snd_zip_eq_take]
      simp [groupCmds, rangeDown_length]
      rw [List.take_of_length_le (by simp)]
      congr 1
      cases hpg : pyEqTrue g
      · simp
      · simp
        omega
    have hE := expGroups_snd_pairwise (ls.map Prod.fst).reverse
      (ls.length + 2) 1 Nat.one_pos
    have hE2 : ∀ x ∈ (expGroups (ls.map Prod.fst).reverse
        (ls.length + 2) 1).map Prod.snd,
        ls.length + 2 ≤ x ∧ x < 2 * ls.length + 2 := by
      intro x hx
      have h := hE.2 x hx
      simp only [one_mul, List.length_reverse, List.length_map] at h
      omega
    have hP : List.Pairwise (· < ·)
        ((groupCmds (tokamak.build_torus R r (RadialBuild.sym ls) g)).map
          Prod.snd) := by
      rw [hmain]
      cases hpg : pyEqTrue g
      · simp [hpg]
        refine ⟨fun a' x hx => ?_, hE.1⟩
        have := (hE2 a' (List.mem_map.mpr ⟨(x, a'), hx, rfl⟩)).1
        omega
      · simp [hpg]
        constructor
        · rintro a' (⟨a, ha⟩ | rfl)
          · have := (hE2 a' (List.mem_map.mpr ⟨(a, a'), ha, rfl⟩)).1
            omega
          · omega
        · rw [List.pairwise_append]
          refine ⟨hE.1, by simp, ?_⟩
          intro x hx y hy
          have h2 := (hE2 x hx).2
          simp at hy
          omega
    exact ⟨hmain, hP.imp (fun h => Nat.ne_of_lt h),
      by rw [MTOT_eq_tokamak]⟩
  · intro ib ob hob
    have hlen : 0 < ob.length := List.length_pos.mpr hob
    have hmain : groupCmds (tokamak.build_torus R r (RadialBuild.ibob ib ob) g)
        = (("Vacuum"), 2)
            :: expGroups (ib.map Prod.fst).reverse (ib.length + 4) 2
            ++ expGroups ((ob.map Prod.fst).reverse.take (ob.length - 1))
                (3 * ib.length + ob.length + 3) 1
            ++ [((ob.map Prod.fst).headI, 3 * ib.length + 2 * ob.length + 2)]
            ++ (if pyEqTrue g = true then
                [(("Graveyard"), 3 * ib.length + 2 * ob.length + 5)] else []) := by
      simp only [tokamak.build_torus]
      simp only [groupCmds_append, groupCmds_contor, tokamak.groupCmds_symLoop,
        tokamak.groupCmds_inboardLoop, tokamak.groupCmds_outboardLoop,
        tokamak.inboardLoop_snd, tokamak.outboardLoop_snd,
        apply_ite groupCmds, map_snd_zip_eq_take]
      simp [groupCmds, rangeDown_length]
      rw [List.take_of_length_le (by simp)]
      rw [show ob.length + (ib.length + 4 + 2 * ib.length) - 1 - 1
            - (ib.length + 3 + 2 * ib.length) = ob.length - 1 from by omega]
      rw [show ob.length + (ib.length + 4 + 2 * ib.length) - 1
            = 3 * ib.length + ob.length + 3 from by omega]
      rw [show (ob.length - 1) ⊓ ob.length = ob.length - 1 from by omega]
      rw [show 3 * ib.length + ob.length + 3 + (ob.length - 1)
            = 3 * ib.length + 2 * ob.length + 2 from by omega]
    have hA := expGroups_snd_pairwise (ib.map Prod.fst).reverse
      (ib.length + 4) 2 (by omega)
    have hB := expGroups_snd_pairwise
      ((ob.map Prod.fst).reverse.take (ob.length - 1))
      (3 * ib.length + ob.length + 3) 1 Nat.one_pos
    have hA2 : ∀ x ∈ (expGroups (ib.map Prod.fst).reverse
        (ib.length + 4) 2).map Prod.snd,
        ib.length + 4 ≤ x ∧ x < 3 * ib.length + 4 := by
      intro x hx
      have h := hA.2 x hx
      simp only [List.length_reverse, List.length_map] at h
      omega
    have hB2 : ∀ x ∈ (expGroups ((ob.map Prod.fst).reverse.take
        (ob.length - 1)) (3 * ib.length + ob.length + 3) 1).map Prod.snd,
        3 * ib.length + ob.length + 3 ≤ x
        ∧ x < 3 * ib.length + 2 * ob.length + 2 := by
      intro x hx
      have h := hB.2 x hx
      have htk : ((ob.map Prod.fst).reverse.take (ob.length - 1)).length
          ≤ ob.length - 1 := by simp
      simp only [one_mul] at h
      omega
    have hP : List.Pairwise (· < ·)
        ((groupCmds (tokamak.build_torus R r (RadialBuild.ibob ib ob) g)).map
          Prod.snd) := by
      rw [hmain]
      cases hpg : pyEqTrue g
      · simp [hpg]
        constructor
        · rintro a' (⟨a, ha⟩ | ⟨a, ha⟩ | rfl)
          · have := (hA2 a' (List.mem_map.mpr ⟨(a, a'), ha, rfl⟩)).1
            omega
          · have := (hB2 a' (List.mem_map.mpr ⟨(a, a'), ha, rfl⟩)).1
            omega
          · omega
        · rw [List.pairwise_append]
          refine ⟨hA.1, ?_, ?_⟩
          · rw [List.pairwise_append]
            refine ⟨hB.1, by simp, ?_⟩
            intro x hx y hy
            simp at hy
            rw [hy]
            exact (hB2 x hx).2
          · intro x hx y hy
            have hx2 := (hA2 x hx).2
            rcases List.mem_append.mp hy with hy | hy
            · have := (hB2 y hy).1
              omega
            · simp at hy
              omega
      · simp [hpg]
        constructor
        · rintro a' (⟨a, ha⟩ | ⟨a, ha⟩ | rfl | rfl)
          · have := (hA2 a' (List.mem_map.mpr ⟨(a, a'), ha, rfl⟩)).1
            omega
          · have := (hB2 a' (List.mem_map.mpr ⟨(a, a'), ha, rfl⟩)).1
            omega
          · omega
          · omega
        · rw [List.pairwise_append]
          refine ⟨hA.1, ?_, ?_⟩
          · rw [List.pairwise_append]
            refine ⟨hB.1, by simp, ?_⟩
            intro x hx y hy
            have h2 := (hB2 x hx).2
            simp at hy
            rcases hy with rfl | rfl
            · omega
            · omega
          · intro x hx y hy
            have hx2 := (hA2 x hx).2
            rcases List.mem_append.mp hy with hy | hy
            · have := (hB2 y hy).1
              omega
            · simp at hy
              rcases hy with rfl | rfl
              · omega
              · omega
    exact ⟨hmain, hP.imp (fun h => Nat.ne_of_lt h),
      by rw [MTOT_eq_tokamak]⟩

/-- Witness for C5 at the inboard/outboard build [A] / [B, C] with
graveyard: groups are Vacuum(2), A(5), C(8), B(9), Graveyard(12), with
distinct volume ids. -/
theorem C5_one_group_per_layer_witness :
    groupCmds (tokamak.build_torus 10 1
        (RadialBuild.ibob [(("A"), 1)] [(("B"), 1), (("C"), 1)])
        (PyVal.pbool true))
      = [(("Vacuum"), 2), (("A"), 5), (("C"), 8), (("B"), 9),
         (("Graveyard"), 12)]
    ∧ ((groupCmds (tokamak.build_torus 10 1
        (RadialBuild.ibob [(("A"), 1)] [(("B"), 1), (("C"), 1)])
        (PyVal.pbool true))).map Prod.snd).Nodup := by
  have h := (C5_one_group_per_layer 10 1 (PyVal.pbool true)).2
    [(("A"), 1)] [(("B"), 1), (("C"), 1)] (by decide)
  refine ⟨?_, h.2.1⟩
  rw [h.1]
  decide

/-- Graveyard-only plain subtraction commands. -/
def isSubtractVol : Cmd → Bool
  | .subtractVol _ _ => true
  | _ => false

/-- Group commands naming mat:Graveyard. -/
def isGraveyardGroup : Cmd → Bool
  | .groupAdd n _ => n == ("Graveyard")
  | _ => false

/-- A trace contains a plain (graveyard) subtraction. -/
def hasSubtractVol (tr : List Cmd) : Bool := tr.any isSubtractVol

/-- A trace contains a mat:Graveyard group command. -/
def hasGraveyardGroup (tr : List Cmd) : Bool := tr.any isGraveyardGroup

lemma any_false_of_all {p q : Cmd → Bool} {l : List Cmd}
    (h : l.all p = true) (himp : ∀ c, p c = true → q c = false) :
    l.any q = false := by
  rw [List.any_eq_false]
  intro c hc
  have := himp c (List.all_eq_true.mp h c hc)
  simp [this]

lemma tori_any_false (q : Cmd → Bool) (major : Rat) (rs : List Rat)
    (hq : ∀ x y, q (Cmd.apiTorus x y) = false) :
    (rs.map fun x => Cmd.apiTorus major x).any q = false := by
  rw [List.any_eq_false]
  intro c hc
  obtain ⟨x, _, rfl⟩ := List.mem_map.mp hc
  simp [hq]

lemma contor_any_false (q : Cmd → Bool) (R r : Rat) (b : List Rat)
    (hq : ∀ x y, q (Cmd.apiTorus x y) = false) :
    (tokamak.contor R r b).any q = false :=
  tori_any_false q R (cumsumFrom r b) hq

lemma layerCmd_not_brick : ∀ c : Cmd, layerCmd c = true → isBrick c = false := by
  intro c h
  cases c <;> simp_all [layerCmd, isBrick]

lemma layerCmd_not_subtractVol : ∀ c : Cmd, layerCmd c = true →
    isSubtractVol c = false := by
  intro c h
  cases c <;> simp_all [layerCmd, isSubtractVol]

/-- C9: the -d and -g options behave as pure presence flags even though
their argparse default is the string 'False' rather than the boolean
False.  Since Python's 'x == True' is false for the string default,
save_geometry issues the DAGMC watertight export iff -d was passed, the
ACIS .sat export and set-attribute commands are always issued, and
build_torus emits the graveyard brick and plain-subtraction commands iff
-g was passed (with the mat:Graveyard group command when it was); both
scripts behave identically. -/
theorem C9_store_true_string_default (d gflag : Bool) (path : String)
    (R r : Rat) (rb : RadialBuild) (hok : rb.ok) :
    (Cmd.exportDagmc ∈ tokamak.save_geometry path (parsedFlag d) ↔ d = true)
    ∧ Cmd.setAttr ∈ tokamak.save_geometry path (parsedFlag d)
    ∧ Cmd.exportAcis path ∈ tokamak.save_geometry path (parsedFlag d)
    ∧ MTOT.save_geometry path (parsedFlag d)
        = tokamak.save_geometry path (parsedFlag d)
    ∧ hasBrick (tokamak.build_torus R r rb (parsedFlag gflag)) = gflag
    ∧ hasSubtractVol (tokamak.build_torus R r rb (parsedFlag gflag)) = gflag
    ∧ (gflag = true →
        hasGraveyardGroup (tokamak.build_torus R r rb (parsedFlag gflag))
          = true)
    ∧ MTOT.build_torus R r rb (parsedFlag gflag)
        = tokamak.build_torus R r rb (parsedFlag gflag) := by
  have hpe : pyEqTrue (parsedFlag gflag) = gflag := by cases gflag <;> rfl
  refine ⟨?_, ?_, ?_, rfl, ?_, ?_, ?_, MTOT_eq_tokamak R r rb _⟩
  · cases d <;> simp [tokamak.save_geometry, parsedFlag, pyEqTrue]
  · cases d <;> simp [tokamak.save_geometry, parsedFlag, pyEqTrue]
  · cases d <;> simp [tokamak.save_geometry, parsedFlag, pyEqTrue]
  · rcases rb with ls | ⟨ib, ob⟩
    · simp only [tokamak.build_torus]
      simp only [hasBrick, List.any_append, apply_ite (List.any · isBrick), hpe]
      rw [contor_any_false isBrick R r (ls.map Prod.snd) (fun x y => rfl)]
      rw [any_false_of_all (tokamak.symLoop_all _ _) layerCmd_not_brick]
      simp [isBrick]
    · simp only [tokamak.build_torus]
      simp only [hasBrick, List.any_append, apply_ite (List.any · isBrick), hpe]
      rw [contor_any_false isBrick R r (ib.map Prod.snd) (fun x y => rfl),
        contor_any_false isBrick R r (ob.map Prod.snd) (fun x y => rfl)]
      rw [any_false_of_all (tokamak.inboardLoop_all _ _) layerCmd_not_brick,
        any_false_of_all (tokamak.outboardLoop_all _ _) layerCmd_not_brick]
      simp [isBrick]
  · rcases rb with ls | ⟨ib, ob⟩
    · simp only [tokamak.build_torus]
      simp only [hasSubtractVol, List.any_append,
        apply_ite (List.any · isSubtractVol), hpe]
      rw [contor_any_false isSubtractVol R r (ls.map Prod.snd) (fun x y => rfl)]
      rw [any_false_of_all (tokamak.symLoop_all _ _) layerCmd_not_subtractVol]
      simp [isSubtractVol]
    · simp only [tokamak.build_torus]
      simp only [hasSubtractVol, List.any_append,
        apply_ite (List.any · isSubtractVol), hpe]
      rw [contor_any_false isSubtractVol R r (ib.map Prod.snd) (fun x y => rfl),
        contor_any_false isSubtractVol R r (ob.map Prod.snd) (fun x y => rfl)]
      rw [any_false_of_all (tokamak.inboardLoop_all _ _) layerCmd_not_subtractVol,
        any_false_of_all (tokamak.outboardLoop_all _ _) layerCmd_not_subtractVol]
      simp [isSubtractVol]
  · intro hg
    subst hg
    rcases rb with ls | ⟨ib, ob⟩ <;>
    · simp only [tokamak.build_torus]
      simp only [hasGraveyardGroup, List.any_append, hpe]
      simp [isGraveyardGroup]

/-- Witness for C9: with both flags passed, the DAGMC export, the bricks,
the plain subtraction and the Graveyard group appear; with the string
defaults they do not. -/
theorem C9_store_true_string_default_witness :
    (Cmd.exportDagmc ∈ tokamak.save_geometry ("p") (parsedFlag true))
    ∧ hasBrick (tokamak.build_torus 10 1 (RadialBuild.sym [(("A"), 1)])
        (parsedFlag true)) = true
    ∧ hasGraveyardGroup (tokamak.build_torus 10 1
        (RadialBuild.sym [(("A"), 1)]) (parsedFlag true)) = true
    ∧ hasBrick (tokamak.build_torus 10 1 (RadialBuild.sym [(("A"), 1)])
        (parsedFlag false)) = false := by
  have h := C9_store_true_string_default true true ("p") 10 1
    (RadialBuild.sym [(("A"), 1)]) trivial
  have h2 := C9_store_true_string_default true false ("p") 10 1
    (RadialBuild.sym [(("A"), 1)]) trivial
  exact ⟨h.1.mpr rfl, h.2.2.2.2.1, h.2.2.2.2.2.2.1 rfl, h2.2.2.2.2.1⟩

lemma groupCmds_groupLoop : ∀ (names : List String) (n : Nat),
    groupCmds (AutoTorus.groupLoop names n)
      = names.zip (descFrom n names.length) := by
  intro names
  induction names with
  | nil => intro n; rfl
  | cons l rest ih =>
    intro n
    simp only [AutoTorus.groupLoop, groupCmds, List.filterMap_cons,
      List.length_cons, descFrom, List.zip_cons_cons]
    rw [← ih (n - 1)]
    rfl

lemma subtractAnnots_groupLoop : ∀ (names : List String) (n m : Nat),
    subtractAnnots m (AutoTorus.groupLoop names n) = [] := by
  intro names
  induction names with
  | nil => intro n m; rfl
  | cons l rest ih =>
    intro n m
    simpa [AutoTorus.groupLoop, subtractAnnots, createsId] using ih _ _

lemma groupCmds_mapSub (ks : List Nat) :
    groupCmds (ks.map fun k => Cmd.subtractVolume (k - 1) k) = [] := by
  induction ks with
  | nil => rfl
  | cons k l ih => simpa [groupCmds] using ih

lemma subtractAnnots_mapSub : ∀ (ks : List Nat) (m : Nat),
    subtractAnnots m (ks.map fun k => Cmd.subtractVolume (k - 1) k)
      = List.zipWith (fun k i => (k - 1, k, i)) ks (ascFrom m ks.length) := by
  intro ks
  induction ks with
  | nil => intro m; rfl
  | cons k l ih =>
    intro m
    simp only [List.map_cons, subtractAnnots, List.length_cons, ascFrom,
      List.zipWith_cons_cons]
    rw [ih (m + 1)]

lemma created_mapSub (ks : List Nat) :
    created (ks.map fun k => Cmd.subtractVolume (k - 1) k) = ks.length := by
  induction ks with
  | nil => rfl
  | cons k l ih => simp [created, createsId, ih]; omega

/-- C10: AutoTorus assigns material names from the innermost shell outward.
For n layers (names and thicknesses of equal length, passing validation) the
script issues exactly n shell subtractions "subtract volume k-1 from volume k"
for k = n+1 down to 2 over the n+1 tori (under the sequential-ID model the
i-th such result receives id n+2+i, recorded by subtractAnnots), then after
the imprint and merge commands — and only after them — adds volume 1 to group
"mat:Vaccum" and adds each names[i] (0-based, input order) to volume 2n+1-i,
so names[0] labels the innermost shell and names[n-1] the outermost. -/
theorem C10_group_assignment_innermost_outward (R r : Int) (names : List String)
    (t : List Int) (p f : String)
    (hlen : names.length = t.length) (hval : t.sum + r ≤ R) :
    (∃ pre post, AutoTorus.script R r names t p f
        = pre ++ [Cmd.imprint, Cmd.merge] ++ post
        ∧ groupCmds pre = []
        ∧ groupCmds post = (("Vaccum"), 1)
            :: names.zip (descFrom (2 * names.length + 1) names.length))
    ∧ (∀ i, i < names.length →
        (descFrom (2 * names.length + 1) names.length)[i]?
          = some (2 * names.length + 1 - i))
    ∧ subtractAnnots 1 (AutoTorus.script R r names t p f)
        = List.zipWith (fun k i => (k - 1, k, i)) (rangeDown (t.length + 1) 1)
            (ascFrom (t.length + 2) t.length) := by
  have hs : AutoTorus.script R r names t p f
      = Cmd.init :: AutoTorus.geomCmds R r names t p f := by
    simp [AutoTorus.script, hlen, show ¬(t.sum + r > R) from by omega]
  refine ⟨?_, fun i hi => descFrom_getElem? _ _ _ hi, ?_⟩
  · refine ⟨Cmd.init :: Cmd.createTorus R r
        :: ((AutoTorus.intCumsum r t).map (fun a => Cmd.createTorus R a)
        ++ (rangeDown (t.length + 1) 1).map
            (fun k => Cmd.subtractVolume (k - 1) k)),
      Cmd.groupAdd ("Vaccum") 1
        :: (AutoTorus.groupLoop names (2 * names.length + 1)
        ++ [Cmd.setAttr, Cmd.exportAcis (p ++ f)]), ?_, ?_, ?_⟩
    · rw [hs]
      simp only [AutoTorus.geomCmds]
      simp [List.append_assoc]
    · rw [show groupCmds (Cmd.init :: Cmd.createTorus R r
          :: ((AutoTorus.intCumsum r t).map (fun a => Cmd.createTorus R a)
          ++ (rangeDown (t.length + 1) 1).map
              (fun k => Cmd.subtractVolume (k - 1) k)))
        = groupCmds ((AutoTorus.intCumsum r t).map (fun a => Cmd.createTorus R a)
          ++ (rangeDown (t.length + 1) 1).map
              (fun k => Cmd.subtractVolume (k - 1) k)) from rfl]
      rw [groupCmds_append, groupCmds_ctori, groupCmds_mapSub]
      rfl
    · rw [show groupCmds (Cmd.groupAdd ("Vaccum") 1
          :: (AutoTorus.groupLoop names (2 * names.length + 1)
          ++ [Cmd.setAttr, Cmd.exportAcis (p ++ f)]))
        = (("Vaccum"), 1) :: groupCmds (AutoTorus.groupLoop names (2 * names.length + 1)
          ++ [Cmd.setAttr, Cmd.exportAcis (p ++ f)]) from rfl]
      rw [groupCmds_append, groupCmds_groupLoop]
      simp [groupCmds]
  · rw [hs]
    simp only [AutoTorus.geomCmds]
    rw [show ∀ L : List Cmd, subtractAnnots 1 (Cmd.init :: L)
          = subtractAnnots 1 L from fun L => rfl]
    simp only [subtractAnnots_append]
    rw [show subtractAnnots 1 (Cmd.createTorus R r
          :: (AutoTorus.intCumsum r t).map (fun a => Cmd.createTorus R a))
        = subtractAnnots 2
            ((AutoTorus.intCumsum r t).map (fun a => Cmd.createTorus R a))
        from rfl]
    rw [subtractAnnots_ctori, subtractAnnots_mapSub, subtractAnnots_groupLoop]
    simp [created, createsId, created_ctori, intCumsum_length, subtractAnnots,
      rangeDown_length]
    rw [show (1 : Nat) + (1 + t.length) = t.length + 2 from by omega]

theorem C10_group_assignment_innermost_outward_witness :
    ([("A"), ("B")] : List String).length = ([1, 1] : List Int).length
    ∧ ([1, 1] : List Int).sum + 2 ≤ 10
    ∧ ((∃ pre post, AutoTorus.script 10 2 [("A"), ("B")] [1, 1] ("p") ("f")
        = pre ++ [Cmd.imprint, Cmd.merge] ++ post
        ∧ groupCmds pre = []
        ∧ groupCmds post = (("Vaccum"), 1)
            :: ([("A"), ("B")] : List String).zip
                (descFrom (2 * ([("A"), ("B")] : List String).length + 1)
                  ([("A"), ("B")] : List String).length))
    ∧ (∀ i, i < ([("A"), ("B")] : List String).length →
        (descFrom (2 * ([("A"), ("B")] : List String).length + 1)
            ([("A"), ("B")] : List String).length)[i]?
          = some (2 * ([("A"), ("B")] : List String).length + 1 - i))
    ∧ subtractAnnots 1
          (AutoTorus.script 10 2 [("A"), ("B")] [1, 1] ("p") ("f"))
        = List.zipWith (fun k i => (k - 1, k, i))
            (rangeDown (([1, 1] : List Int).length + 1) 1)
            (ascFrom (([1, 1] : List Int).length + 2)
              ([1, 1] : List Int).length)) :=
  ⟨by decide, by decide,
    C10_group_assignment_innermost_outward 10 2 [("A"), ("B")] [1, 1]
      ("p") ("f") (by decide) (by decide)⟩
